import Mathlib

/-!
Shallow embedding of `src/zkpf/validate_attestation.py` (the attestation
structure validator of zk-proof-of-funds) and verification of the claims
about it.

Modelling conventions:

* A parsed JSON value (the output of Python's `json.load`) is the inductive
  `JValue`.  Python's `bool` is a subclass of `int`, so the dynamic check
  `isinstance(v, int)` is true for both `jint` and `jbool`; this is captured
  by `isPyInt` / `pyIntVal`.  Non-integer JSON numbers become `jfloat`; the
  validator never inspects a float's value, only its type, so the rational
  payload is inert.
* Python operations that can raise (`in` / `[]` on a non-container, `len` of
  a non-sized value) are embedded as `Except PyErr` computations; the whole
  validator therefore has type `JValue → Except PyErr (List Err)`.
* Each distinct f-string template appended to `errors` in the source is one
  constructor of `Err`, carrying exactly the data the template interpolates.
* `bytes.fromhex` is embedded as `fromhexAux`, following CPython's algorithm:
  ASCII whitespace may separate byte pairs, each byte is two adjacent hex
  digits, anything else raises `ValueError` (here: returns `none`; the
  caller's `try/except ValueError` is the `Option` match).
* `str.removeprefix` is embedded as `removeprefixL` on the character list of
  the string.
-/

/-- A parsed JSON value, as produced by Python's `json.load`. -/
inductive JValue where
  | jint (n : Int)
  | jfloat (q : Rat)
  | jbool (b : Bool)
  | jnull
  | jstr (s : String)
  | jlist (xs : List JValue)
  | jdict (d : List (String × JValue))

/-- A Python exception escaping the validator (the claims only need the
exception class, not its message). -/
inductive PyErr where
  | typeError
  | keyError
deriving DecidableEq, Repr

/-- The Python container types named in the validator's `required_fields`
table (`int`, `str`, `dict`, `list`). -/
inductive PyTy where
  | int
  | str
  | dict
  | list
deriving DecidableEq, Repr

/-- One constructor per distinct error message appended by
`validate_attestation`, carrying the data the f-string interpolates. -/
inductive Err where
  /-- "Missing top-level 'attestation' field" -/
  | missingAttestation
  /-- "Missing required field: \x7bfield\x7d (\x7bdescription\x7d)" -/
  | missingField (field : String) (description : String)
  /-- "Field '\x7bfield\x7d' has wrong type: expected ..., got ..." -/
  | wrongType (field : String) (expected : PyTy) (value : JValue)
  /-- "custodian_pubkey missing '\x7bk\x7d' field" -/
  | pubkeyMissing (k : String)
  /-- "custodian_pubkey.\x7bk\x7d must be array of 32 bytes, got \x7bn\x7d bytes" -/
  | pubkeyLen (k : String) (n : Nat)
  /-- "signature missing '\x7bk\x7d' field" -/
  | sigMissing (k : String)
  /-- "signature.\x7bk\x7d must be array of 32 bytes, got \x7bn\x7d bytes" -/
  | sigLen (k : String) (n : Nat)
  /-- "message_hash must be array of 32 bytes, got \x7blen or non-array\x7d" -/
  | msgHashShape (got : Option Nat)
  /-- "message_hash[\x7bi\x7d] must be byte (0-255), got \x7bv\x7d" -/
  | msgHashByte (i : Nat) (v : JValue)
  /-- "account_id_hash hex string must be 64 chars (32 bytes), got \x7bn\x7d" -/
  | aihHexLen (n : Nat)
  /-- "account_id_hash is not valid hex: \x7bs\x7d" -/
  | aihNotHex (s : String)
  /-- "account_id_hash array must be 32 bytes, got \x7bn\x7d" -/
  | aihArrayLen (n : Nat)
  /-- "account_id_hash must be hex string or byte array, got \x7btype\x7d" -/
  | aihType (v : JValue)
  /-- "balance_raw must be non-negative" -/
  | balanceNeg
  /-- "currency_code_int must fit in u32" -/
  | currencyRange
  /-- "custodian_id must fit in u32" -/
  | custodianRange

/-- First-match association-list lookup: the semantics of indexing a Python
`dict` with string keys (a dict produced by `json.load` has unique keys, so
first-match agrees with it). -/
def dictLookup (d : List (String × JValue)) (k : String) : Option JValue :=
  match d with
  | [] => none
  | (k2, v) :: rest => if k2 = k then some v else dictLookup rest k

/-- Substring test on character lists: Python's `needle in haystack` for
strings. -/
def hasSubstr (needle : List Char) : List Char → Bool
  | [] => needle.isEmpty
  | c :: rest => needle.isPrefixOf (c :: rest) || hasSubstr needle rest

/-- Python's `k in v` for a string key `k`: key membership for dicts,
element equality for lists (a string equals only an equal string), substring
test for strings, `TypeError` for every other JSON value. -/
def pyContains (v : JValue) (k : String) : Except PyErr Bool :=
  match v with
  | .jdict d => .ok (dictLookup d k).isSome
  | .jlist xs => .ok (xs.any fun x => match x with | .jstr t => t = k | _ => false)
  | .jstr s => .ok (hasSubstr k.data s.data)
  | _ => .error .typeError

/-- Python's `v[k]` for a string key `k`: dict lookup (`KeyError` when the
key is absent), `TypeError` on any other JSON value (list and str reject
string indices). -/
def pyIndex (v : JValue) (k : String) : Except PyErr JValue :=
  match v with
  | .jdict d =>
    match dictLookup d k with
    | some x => .ok x
    | none => .error .keyError
  | _ => .error .typeError

/-- Python's `len(v)`: defined for str, list and dict, `TypeError` for every
other JSON value. -/
def pyLen (v : JValue) : Except PyErr Nat :=
  match v with
  | .jstr s => .ok s.data.length
  | .jlist xs => .ok xs.length
  | .jdict d => .ok d.length
  | _ => .error .typeError

/-- `isinstance(v, int)` in Python: true for ints and for bools (Python's
`bool` is a subclass of `int`). -/
def isPyInt : JValue → Bool
  | .jint _ => true
  | .jbool _ => true
  | _ => false

/-- The integer value Python arithmetic sees: `True` is `1`, `False` is `0`. -/
def pyIntVal : JValue → Int
  | .jint n => n
  | .jbool b => if b then 1 else 0
  | _ => 0

/-- `isinstance(v, t)` for the four container types of the
`required_fields` table. -/
def typeMatches : PyTy → JValue → Bool
  | .int, v => isPyInt v
  | .str, .jstr _ => true
  | .str, _ => false
  | .dict, .jdict _ => true
  | .dict, _ => false
  | .list, .jlist _ => true
  | .list, _ => false

/-- The `required_fields` table of the source, in declaration order:
field name, expected Python type, human description. -/
def required_fields : List (String × PyTy × String) :=
  [ ("balance_raw", PyTy.int, "u64"),
    ("currency_code_int", PyTy.int, "u32"),
    ("custodian_id", PyTy.int, "u32"),
    ("attestation_id", PyTy.int, "u64"),
    ("issued_at", PyTy.int, "u64"),
    ("valid_until", PyTy.int, "u64"),
    ("account_id_hash", PyTy.str, "32-byte hex or array"),
    ("custodian_pubkey", PyTy.dict, "object with x, y"),
    ("signature", PyTy.dict, "object with r, s"),
    ("message_hash", PyTy.list, "32-byte array") ]

/-- One iteration of the required-field loop: a "missing field" error when
the key is absent (then `continue`), else a "wrong type" error when
`isinstance` fails, else nothing. -/
def reqCheck (att : JValue) (fd : String × PyTy × String) : Except PyErr (List Err) :=
  match pyContains att fd.1 with
  | .error e => .error e
  | .ok false => .ok [Err.missingField fd.1 fd.2.2]
  | .ok true =>
    match pyIndex att fd.1 with
    | .error e => .error e
    | .ok v => if typeMatches fd.2.1 v then .ok [] else .ok [Err.wrongType fd.1 fd.2.1 v]

/-- Sequences a list of error-list computations, concatenating their
results; the first exception aborts (Python's sequential appends to
`errors`). -/
def concatMapM (f : α → Except PyErr (List Err)) : List α → Except PyErr (List Err)
  | [] => .ok []
  | x :: xs =>
    match f x with
    | .error e => .error e
    | .ok es =>
      match concatMapM f xs with
      | .error e => .error e
      | .ok rest => .ok (es ++ rest)

/-- The required-field presence-and-type pass over the ten fields. -/
def requiredPass (att : JValue) : Except PyErr (List Err) :=
  concatMapM (reqCheck att) required_fields

/-- The shared shape of the x/y/r/s sub-checks: `if k not in parent` then a
"missing" error; `elif not isinstance(parent[k], list) or len(parent[k]) != 32`
then a length error whose message computes `len(parent.get(k, []))` — which
raises `TypeError` when the present value has no `len`. -/
def subArray32Check (p : List (String × JValue)) (k : String)
    (missErr : Err) (lenErr : Nat → Err) : Except PyErr (List Err) :=
  match dictLookup p k with
  | none => .ok [missErr]
  | some (.jlist xs) => if xs.length = 32 then .ok [] else .ok [lenErr xs.length]
  | some v =>
    match pyLen v with
    | .error e => .error e
    | .ok n => .ok [lenErr n]

/-- Runs two sub-checks in order, concatenating their error lists; an
exception in the first aborts the second. -/
def seq2 (m1 m2 : Except PyErr (List Err)) : Except PyErr (List Err) :=
  match m1 with
  | .error e => .error e
  | .ok e1 =>
    match m2 with
    | .error e => .error e
    | .ok e2 => .ok (e1 ++ e2)

/-- The `custodian_pubkey` structural check: runs only when the field is
present and a dict; checks `x` then `y`. -/
def pubkeyCheck (att : JValue) : Except PyErr (List Err) :=
  match pyContains att "custodian_pubkey" with
  | .error e => .error e
  | .ok false => .ok []
  | .ok true =>
    match pyIndex att "custodian_pubkey" with
    | .error e => .error e
    | .ok (.jdict p) =>
      seq2 (subArray32Check p "x" (Err.pubkeyMissing "x") (Err.pubkeyLen "x"))
        (subArray32Check p "y" (Err.pubkeyMissing "y") (Err.pubkeyLen "y"))
    | .ok _ => .ok []

/-- The `signature` structural check: runs only when the field is present
and a dict; checks `r` then `s`. -/
def signatureCheck (att : JValue) : Except PyErr (List Err) :=
  match pyContains att "signature" with
  | .error e => .error e
  | .ok false => .ok []
  | .ok true =>
    match pyIndex att "signature" with
    | .error e => .error e
    | .ok (.jdict p) =>
      seq2 (subArray32Check p "r" (Err.sigMissing "r") (Err.sigLen "r"))
        (subArray32Check p "s" (Err.sigMissing "s") (Err.sigLen "s"))
    | .ok _ => .ok []

/-- Is a list element an in-range byte: `isinstance(b, int) and 0 <= b <= 255`
(bools count as ints). -/
def goodByte (v : JValue) : Bool :=
  isPyInt v && decide (0 ≤ pyIntVal v) && decide (pyIntVal v ≤ 255)

/-- The element scan of `message_hash`: emit one error at the first bad
element and `break`; `i` is the running index of `enumerate`. -/
def scanBytes (i : Nat) : List JValue → List Err
  | [] => []
  | v :: rest => if goodByte v then scanBytes (i + 1) rest else [Err.msgHashByte i v]

/-- The `message_hash` check: shape error when not a 32-element list,
otherwise the element scan. -/
def msgHashCheck (att : JValue) : Except PyErr (List Err) :=
  match pyContains att "message_hash" with
  | .error e => .error e
  | .ok false => .ok []
  | .ok true =>
    match pyIndex att "message_hash" with
    | .error e => .error e
    | .ok (.jlist xs) =>
      if xs.length = 32 then .ok (scanBytes 0 xs) else .ok [Err.msgHashShape (some xs.length)]
    | .ok _ => .ok [Err.msgHashShape none]

/-- Hexadecimal value of a character, as CPython's `_PyLong_DigitValue`
classifies it for `bytes.fromhex`. -/
def hexVal (c : Char) : Option Nat :=
  if '0' ≤ c ∧ c ≤ '9' then some (c.toNat - '0'.toNat)
  else if 'a' ≤ c ∧ c ≤ 'f' then some (c.toNat - 'a'.toNat + 10)
  else if 'A' ≤ c ∧ c ≤ 'F' then some (c.toNat - 'A'.toNat + 10)
  else none

/-- ASCII whitespace in the sense of CPython's `Py_ISSPACE`: space, tab,
newline, vertical tab, form feed, carriage return. -/
def isPySpace (c : Char) : Bool :=
  c == ' ' || c == '\t' || c == '\n' || c == Char.ofNat 11 || c == Char.ofNat 12 || c == '\r'

/-- CPython's `bytes.fromhex`: whitespace may separate byte pairs, each byte
is two adjacent hex digits; `none` models the `ValueError` raised on a stray
character or an odd trailing digit. -/
def fromhexAux : List Char → Option (List Nat)
  | [] => some []
  | c :: rest =>
    if isPySpace c then fromhexAux rest
    else
      match hexVal c with
      | none => none
      | some hi =>
        match rest with
        | [] => none
        | c2 :: rest2 =>
          match hexVal c2 with
          | none => none
          | some lo =>
            match fromhexAux rest2 with
            | none => none
            | some bs => some ((hi * 16 + lo) :: bs)

/-- Python's `s.removeprefix(p)` on character lists: drop `p` when it is a
prefix of `s`, otherwise return `s` unchanged. -/
def removeprefixL (s p : List Char) : List Char :=
  if p.isPrefixOf s then s.drop p.length else s

/-- The normalisation the source applies to a string `account_id_hash`:
`aih.removeprefix("0x").removeprefix("0X")` — note both prefixes are
stripped in sequence. -/
def hexRemainder (s : String) : List Char :=
  removeprefixL (removeprefixL s.data ['0', 'x']) ['0', 'X']

/-- The errors collected for a string `account_id_hash`: a length error
whenever the remainder is not 64 characters, and then — regardless of the
length result — a decode error when `bytes.fromhex` fails. -/
def aihStringErrors (s : String) : List Err :=
  (if (hexRemainder s).length = 64 then [] else [Err.aihHexLen (hexRemainder s).length])
    ++ (match fromhexAux (hexRemainder s) with
        | some _ => []
        | none => [Err.aihNotHex s])

/-- The `account_id_hash` format check: hex-string path for strings, a
32-length check for lists, a format error for anything else; runs whenever
the field is present, independently of the step-2 type check. -/
def aihCheck (att : JValue) : Except PyErr (List Err) :=
  match pyContains att "account_id_hash" with
  | .error e => .error e
  | .ok false => .ok []
  | .ok true =>
    match pyIndex att "account_id_hash" with
    | .error e => .error e
    | .ok (.jstr s) => .ok (aihStringErrors s)
    | .ok (.jlist xs) => if xs.length = 32 then .ok [] else .ok [Err.aihArrayLen xs.length]
    | .ok v => .ok [Err.aihType v]

/-- `balance_raw` range check: only when present and `isinstance(..., int)`. -/
def balanceCheck (att : JValue) : Except PyErr (List Err) :=
  match pyContains att "balance_raw" with
  | .error e => .error e
  | .ok false => .ok []
  | .ok true =>
    match pyIndex att "balance_raw" with
    | .error e => .error e
    | .ok v =>
      if isPyInt v then
        if pyIntVal v < 0 then .ok [Err.balanceNeg] else .ok []
      else .ok []

/-- `currency_code_int` range check: must fit in u32. -/
def currencyCheck (att : JValue) : Except PyErr (List Err) :=
  match pyContains att "currency_code_int" with
  | .error e => .error e
  | .ok false => .ok []
  | .ok true =>
    match pyIndex att "currency_code_int" with
    | .error e => .error e
    | .ok v =>
      if isPyInt v then
        if pyIntVal v < 0 ∨ 4294967295 < pyIntVal v then .ok [Err.currencyRange] else .ok []
      else .ok []

/-- `custodian_id` range check: must fit in u32. -/
def custodianCheck (att : JValue) : Except PyErr (List Err) :=
  match pyContains att "custodian_id" with
  | .error e => .error e
  | .ok false => .ok []
  | .ok true =>
    match pyIndex att "custodian_id" with
    | .error e => .error e
    | .ok v =>
      if isPyInt v then
        if pyIntVal v < 0 ∨ 4294967295 < pyIntVal v then .ok [Err.custodianRange] else .ok []
      else .ok []

/-- The validation passes that run after the top-level check, in source
order. -/
def checkBlocks : List (JValue → Except PyErr (List Err)) :=
  [requiredPass, pubkeyCheck, signatureCheck, msgHashCheck, aihCheck,
   balanceCheck, currencyCheck, custodianCheck]

/-- `validate_attestation` of the source: short-circuit when `"attestation"`
is not a member of the document, otherwise run every pass over
`doc["attestation"]` and concatenate the collected errors. -/
def validate_attestation (doc : JValue) : Except PyErr (List Err) :=
  match pyContains doc "attestation" with
  | .error e => .error e
  | .ok false => .ok [Err.missingAttestation]
  | .ok true =>
    match pyIndex doc "attestation" with
    | .error e => .error e
    | .ok att => concatMapM (fun chk => chk att) checkBlocks

/-!
## Specification-side predicates

`specClaimValid` transcribes the invariant list exactly as the claim states
it (one optional prefix stripped from the hex string, strict JSON integers,
element ranges on all five byte arrays, `account_id_hash` as hex string OR
byte array).  `codeValid` transcribes the amended invariant list that the
code actually enforces.  Both are declarative predicates to be compared with
the imperative `validate_attestation`.
-/

/-- A character is a hexadecimal digit. -/
def isHexChar (c : Char) : Bool := (hexVal c).isSome

/-- Stripping of at most one optional leading "0x" or "0X", as the
specification's words describe the normalisation. -/
def stripOne (l : List Char) : List Char :=
  if ['0', 'x'].isPrefixOf l then l.drop 2
  else if ['0', 'X'].isPrefixOf l then l.drop 2
  else l

/-- Spec reading of a byte-array element: a JSON integer in [0,255]. -/
def specByte (v : JValue) : Bool :=
  match v with
  | .jint n => decide (0 ≤ n) && decide (n ≤ 255)
  | _ => false

/-- Spec reading of a 32-byte array field of an object. -/
def specArr32 (p : List (String × JValue)) (k : String) : Bool :=
  match dictLookup p k with
  | some (.jlist xs) => decide (xs.length = 32) && xs.all specByte
  | _ => false

/-- Spec reading of `account_id_hash`: a 64-hex-char string with one
optional 0x/0X prefix, or a 32-element byte array. -/
def specAih (v : JValue) : Bool :=
  match v with
  | .jstr s => decide ((stripOne s.data).length = 64) && (stripOne s.data).all isHexChar
  | .jlist xs => decide (xs.length = 32) && xs.all specByte
  | _ => false

/-- The attestation-object invariants of spec section 3, word for word as
claim C1 enumerates them. -/
def attSpecClaimValid (a : List (String × JValue)) : Bool :=
  (match dictLookup a "balance_raw" with
   | some (.jint n) => decide (0 ≤ n)
   | _ => false) &&
  (match dictLookup a "currency_code_int" with
   | some (.jint n) => decide (0 ≤ n) && decide (n ≤ 4294967295)
   | _ => false) &&
  (match dictLookup a "custodian_id" with
   | some (.jint n) => decide (0 ≤ n) && decide (n ≤ 4294967295)
   | _ => false) &&
  (match dictLookup a "attestation_id" with
   | some (.jint _) => true
   | _ => false) &&
  (match dictLookup a "issued_at" with
   | some (.jint _) => true
   | _ => false) &&
  (match dictLookup a "valid_until" with
   | some (.jint _) => true
   | _ => false) &&
  (match dictLookup a "account_id_hash" with
   | some v => specAih v
   | none => false) &&
  (match dictLookup a "custodian_pubkey" with
   | some (.jdict p) => specArr32 p "x" && specArr32 p "y"
   | _ => false) &&
  (match dictLookup a "signature" with
   | some (.jdict q) => specArr32 q "r" && specArr32 q "s"
   | _ => false) &&
  (match dictLookup a "message_hash" with
   | some (.jlist xs) => decide (xs.length = 32) && xs.all specByte
   | _ => false)

/-- The document invariant of spec section 3 as claim C1 states it. -/
def specClaimValid : JValue → Bool
  | .jdict d =>
    match dictLookup d "attestation" with
    | some (.jdict a) => attSpecClaimValid a
    | _ => false
  | _ => false

/-- A 32-length array field whose element values are unchecked: what the
code enforces for `custodian_pubkey.x/.y` and `signature.r/.s`. -/
def codeArr32 (p : List (String × JValue)) (k : String) : Bool :=
  match dictLookup p k with
  | some (.jlist xs) => decide (xs.length = 32)
  | _ => false

/-- Amended invariant for `balance_raw`: present, a Python int (bools
included), non-negative. -/
def balDecl (a : List (String × JValue)) : Bool :=
  match dictLookup a "balance_raw" with
  | some v => isPyInt v && decide (0 ≤ pyIntVal v)
  | none => false

/-- Amended invariant for the u32 fields: present, a Python int, in
[0, 2^32 - 1]. -/
def u32Decl (a : List (String × JValue)) (k : String) : Bool :=
  match dictLookup a k with
  | some v => isPyInt v && decide (0 ≤ pyIntVal v) && decide (pyIntVal v ≤ 4294967295)
  | none => false

/-- Amended invariant for the unbounded integer ids: present, a Python
int. -/
def intDecl (a : List (String × JValue)) (k : String) : Bool :=
  match dictLookup a k with
  | some v => isPyInt v
  | none => false

/-- Amended invariant for `account_id_hash`: present, a string whose
remainder after stripping a leading "0x" and then a leading "0X" has 64
characters and decodes as hex. -/
def aihDecl (a : List (String × JValue)) : Bool :=
  match dictLookup a "account_id_hash" with
  | some (.jstr s) => decide ((hexRemainder s).length = 64) && (fromhexAux (hexRemainder s)).isSome
  | _ => false

/-- Amended invariant for `custodian_pubkey`: present, an object with `x`
and `y` arrays of exactly 32 elements (element values unchecked). -/
def pkDecl (a : List (String × JValue)) : Bool :=
  match dictLookup a "custodian_pubkey" with
  | some (.jdict p) => codeArr32 p "x" && codeArr32 p "y"
  | _ => false

/-- Amended invariant for `signature`: present, an object with `r` and `s`
arrays of exactly 32 elements (element values unchecked). -/
def sigDecl (a : List (String × JValue)) : Bool :=
  match dictLookup a "signature" with
  | some (.jdict q) => codeArr32 q "r" && codeArr32 q "s"
  | _ => false

/-- Amended invariant for `message_hash`: present, an array of exactly 32
elements, each a Python int in [0,255]. -/
def mhDecl (a : List (String × JValue)) : Bool :=
  match dictLookup a "message_hash" with
  | some (.jlist xs) => decide (xs.length = 32) && xs.all goodByte
  | _ => false

/-- The attestation-object invariants the code actually enforces (the
amended section-3 list): integer fields admit booleans, the four pubkey and
signature arrays are length-checked only, `account_id_hash` must be a
string whose remainder — after stripping a leading "0x" and then a leading
"0X" — has 64 characters and decodes as hex, `message_hash` alone is
element-range-checked. -/
def attCodeValid (a : List (String × JValue)) : Bool :=
  balDecl a && u32Decl a "currency_code_int" && u32Decl a "custodian_id" &&
  intDecl a "attestation_id" && intDecl a "issued_at" && intDecl a "valid_until" &&
  aihDecl a && pkDecl a && sigDecl a && mhDecl a

/-- The document invariant the code actually enforces: an object whose
`attestation` member is an object satisfying `attCodeValid`. -/
def codeValid : JValue → Bool
  | .jdict d =>
    match dictLookup d "attestation" with
    | some (.jdict a) => attCodeValid a
    | _ => false
  | _ => false

/-!
## Concrete documents used by counterexamples and witnesses
-/

/-- A 32-element array of in-range bytes. -/
def bytes32 : List JValue := List.replicate 32 (JValue.jint 7)

/-- A 64-character hexadecimal string. -/
def hex64 : String := "aaaaaaaaaaaaaaaaaaaaaaaaaaaaaaaaaaaaaaaaaaaaaaaaaaaaaaaaaaaaaaaa"

/-- A fully valid attestation object. -/
def validAtt : List (String × JValue) :=
  [ ("balance_raw", JValue.jint 100),
    ("currency_code_int", JValue.jint 840),
    ("custodian_id", JValue.jint 1),
    ("attestation_id", JValue.jint 2),
    ("issued_at", JValue.jint 3),
    ("valid_until", JValue.jint 4),
    ("account_id_hash", JValue.jstr hex64),
    ("custodian_pubkey", JValue.jdict [("x", JValue.jlist bytes32), ("y", JValue.jlist bytes32)]),
    ("signature", JValue.jdict [("r", JValue.jlist bytes32), ("s", JValue.jlist bytes32)]),
    ("message_hash", JValue.jlist bytes32) ]

/-- Replace the value of one key of an attestation object. -/
def setKey (a : List (String × JValue)) (k : String) (v : JValue) : List (String × JValue) :=
  a.map fun kv => if kv.1 = k then (kv.1, v) else kv

/-- Wrap an attestation object into a document. -/
def mkDoc (a : List (String × JValue)) : JValue :=
  JValue.jdict [("attestation", JValue.jdict a)]

/-!
## Characterisation conditions for the individual passes

Each `...BlockOk` Boolean states exactly when the corresponding pass
contributes no error and raises no exception, for an attestation object.
-/

/-- The step-2 condition for one field: present with matching
`isinstance` type. -/
def fieldTypeOk (a : List (String × JValue)) (k : String) (t : PyTy) : Bool :=
  match dictLookup a k with
  | some v => typeMatches t v
  | none => false

/-- The whole required-field pass is silent. -/
def reqOkB (a : List (String × JValue)) : Bool :=
  required_fields.all fun fd => fieldTypeOk a fd.1 fd.2.1

/-- The `custodian_pubkey` pass is silent: field absent, or not a dict, or
a dict with proper 32-element `x` and `y` lists. -/
def pkBlockOk (a : List (String × JValue)) : Bool :=
  match dictLookup a "custodian_pubkey" with
  | some (.jdict p) => codeArr32 p "x" && codeArr32 p "y"
  | some _ => true
  | none => true

/-- The `signature` pass is silent. -/
def sigBlockOk (a : List (String × JValue)) : Bool :=
  match dictLookup a "signature" with
  | some (.jdict q) => codeArr32 q "r" && codeArr32 q "s"
  | some _ => true
  | none => true

/-- The `message_hash` pass is silent. -/
def mhBlockOk (a : List (String × JValue)) : Bool :=
  match dictLookup a "message_hash" with
  | some (.jlist xs) => decide (xs.length = 32) && xs.all goodByte
  | some _ => false
  | none => true

/-- The `account_id_hash` pass is silent. -/
def aihBlockOk (a : List (String × JValue)) : Bool :=
  match dictLookup a "account_id_hash" with
  | some (.jstr s) => decide ((hexRemainder s).length = 64) && (fromhexAux (hexRemainder s)).isSome
  | some (.jlist xs) => decide (xs.length = 32)
  | some _ => false
  | none => true

/-- The `balance_raw` range pass is silent. -/
def balBlockOk (a : List (String × JValue)) : Bool :=
  match dictLookup a "balance_raw" with
  | some v => !(isPyInt v && decide (pyIntVal v < 0))
  | none => true

/-- The `currency_code_int` range pass is silent. -/
def curBlockOk (a : List (String × JValue)) : Bool :=
  match dictLookup a "currency_code_int" with
  | some v => !(isPyInt v && (decide (pyIntVal v < 0) || decide (4294967295 < pyIntVal v)))
  | none => true

/-- The `custodian_id` range pass is silent. -/
def cusBlockOk (a : List (String × JValue)) : Bool :=
  match dictLookup a "custodian_id" with
  | some v => !(isPyInt v && (decide (pyIntVal v < 0) || decide (4294967295 < pyIntVal v)))
  | none => true

/-- Is an error one of the three numeric-range errors of step 5?  (Used to
show no other pass can produce them.) -/
def numErr (e : Err) : Bool :=
  match e with
  | .balanceNeg => true
  | .currencyRange => true
  | .custodianRange => true
  | _ => false

/-!
## Concrete attestation documents for counterexamples and witnesses
-/

/-- An attestation object with the pubkey and signature arrays replaced by
arbitrary lists, everything else fully valid. -/
def attArrays (vx vy vr vs : List JValue) : List (String × JValue) :=
  [ ("balance_raw", JValue.jint 100),
    ("currency_code_int", JValue.jint 840),
    ("custodian_id", JValue.jint 1),
    ("attestation_id", JValue.jint 2),
    ("issued_at", JValue.jint 3),
    ("valid_until", JValue.jint 4),
    ("account_id_hash", JValue.jstr hex64),
    ("custodian_pubkey", JValue.jdict [("x", JValue.jlist vx), ("y", JValue.jlist vy)]),
    ("signature", JValue.jdict [("r", JValue.jlist vr), ("s", JValue.jlist vs)]),
    ("message_hash", JValue.jlist bytes32) ]

/-- An attestation object holding only an `account_id_hash` string. -/
def aihAtt (s : String) : JValue :=
  JValue.jdict [("account_id_hash", JValue.jstr s)]

/-- An attestation object holding only a `message_hash` list. -/
def mhAtt (xs : List JValue) : JValue :=
  JValue.jdict [("message_hash", JValue.jlist xs)]

/-- C1's counterexample document: fully valid except that
`account_id_hash` is given in the 32-element byte-array form that spec
section 3 allows. -/
def docAihArray : JValue := mkDoc (setKey validAtt "account_id_hash" (JValue.jlist bytes32))

/-- C2's failing input: valid except that `custodian_pubkey.x` is the
integer 0 (present but not a list). -/
def docXNotList : JValue := mkDoc (setKey validAtt "custodian_pubkey" (JValue.jdict [("x", JValue.jint 0)]))

/-- C4's counterexample document: fully valid except that
`custodian_pubkey.x` has the out-of-range element 256 at index 0. -/
def docX256 : JValue :=
  mkDoc (setKey validAtt "custodian_pubkey"
    (JValue.jdict [("x", JValue.jlist (JValue.jint 256 :: List.replicate 31 (JValue.jint 7))),
                   ("y", JValue.jlist bytes32)]))

/-- C5's counterexample document: fully valid except that
`account_id_hash` starts with BOTH prefixes, "0x" then "0X". -/
def docDoublePre : JValue :=
  mkDoc (setKey validAtt "account_id_hash" (JValue.jstr ("0x0X" ++ hex64)))

/-- C10's document: every integer field and two `message_hash` elements are
JSON booleans, everything else fully valid. -/
def docBools : JValue :=
  mkDoc
    [ ("balance_raw", JValue.jbool true),
      ("currency_code_int", JValue.jbool false),
      ("custodian_id", JValue.jbool true),
      ("attestation_id", JValue.jbool false),
      ("issued_at", JValue.jbool true),
      ("valid_until", JValue.jbool false),
      ("account_id_hash", JValue.jstr hex64),
      ("custodian_pubkey", JValue.jdict [("x", JValue.jlist bytes32), ("y", JValue.jlist bytes32)]),
      ("signature", JValue.jdict [("r", JValue.jlist bytes32), ("s", JValue.jlist bytes32)]),
      ("message_hash", JValue.jlist (JValue.jbool true :: JValue.jbool false :: List.replicate 30 (JValue.jint 9))) ]

/-- A `message_hash` array of 32 integers whose element at index 5 is 256. -/
def mhBad5 : List JValue :=
  List.replicate 5 (JValue.jint 0) ++ [JValue.jint 256] ++ List.replicate 26 (JValue.jint 0)

/-- C9's witness document: fully valid except `balance_raw` is -5. -/
def docNegBal : JValue := mkDoc (setKey validAtt "balance_raw" (JValue.jint (-5)))

/-- The attestation object of `docNegBal`. -/
def attNegBal : List (String × JValue) := setKey validAtt "balance_raw" (JValue.jint (-5))

/-!
## General lemmas about the embedding
-/

theorem pyContains_jdict (a : List (String × JValue)) (k : String) :
    pyContains (.jdict a) k = .ok (dictLookup a k).isSome := rfl

theorem pyIndex_jdict_some (a : List (String × JValue)) (k : String) (v : JValue)
    (h : dictLookup a k = some v) : pyIndex (.jdict a) k = .ok v := by
  simp [pyIndex, h]

theorem concatMapM_eq_ok_nil (f : α → Except PyErr (List Err)) (l : List α) :
    concatMapM f l = Except.ok [] ↔ ∀ x ∈ l, f x = Except.ok [] := by
  induction l with
  | nil => simp [concatMapM]
  | cons x xs ih =>
    simp only [concatMapM, List.forall_mem_cons]
    cases hfx : f x with
    | error e =>
      constructor
      · intro h; cases h
      · rintro ⟨h1, _⟩; cases h1
    | ok es =>
      cases hrest : concatMapM f xs with
      | error e =>
        constructor
        · intro h; cases h
        · rintro ⟨_, h2⟩
          have h3 := ih.mpr h2
          rw [hrest] at h3; cases h3
      | ok rest =>
        constructor
        · intro h
          injection h with h
          obtain ⟨he, hr⟩ := List.append_eq_nil.mp h
          refine ⟨by rw [he], ih.mp ?_⟩
          rw [hrest, hr]
        · rintro ⟨h1, h2⟩
          injection h1 with h1
          have h3 := ih.mpr h2
          rw [hrest] at h3; injection h3 with h3
          rw [h1, h3]; rfl

theorem mem_concatMapM (f : α → Except PyErr (List Err)) (l : List α) (out : List Err)
    (h : concatMapM f l = .ok out) (e : Err) :
    e ∈ out ↔ ∃ x ∈ l, ∃ ex, f x = .ok ex ∧ e ∈ ex := by
  induction l generalizing out with
  | nil =>
    simp only [concatMapM] at h
    injection h with h
    subst h; simp
  | cons x xs ih =>
    simp only [concatMapM] at h
    cases hfx : f x with
    | error e2 => rw [hfx] at h; cases h
    | ok es =>
      rw [hfx] at h
      cases hrest : concatMapM f xs with
      | error e2 => rw [hrest] at h; cases h
      | ok rest =>
        rw [hrest] at h
        injection h with h
        subst h
        have hih := ih rest hrest
        simp only [List.mem_append, hih, List.mem_cons]
        constructor
        · rintro (he | ⟨y, hy, ex, hex, hee⟩)
          · exact ⟨x, Or.inl rfl, es, hfx, he⟩
          · exact ⟨y, Or.inr hy, ex, hex, hee⟩
        · rintro ⟨y, (rfl | hy), ex, hex, hee⟩
          · rw [hfx] at hex; injection hex with hex; rw [← hex] at hee; exact Or.inl hee
          · exact Or.inr ⟨y, hy, ex, hex, hee⟩

theorem reqCheck_jdict (a : List (String × JValue)) (fd : String × PyTy × String) :
    reqCheck (.jdict a) fd =
      match dictLookup a fd.1 with
      | none => .ok [Err.missingField fd.1 fd.2.2]
      | some v =>
        if typeMatches fd.2.1 v then .ok [] else .ok [Err.wrongType fd.1 fd.2.1 v] := by
  cases h : dictLookup a fd.1 <;> simp [reqCheck, pyContains, pyIndex, h]

theorem reqCheck_jdict_ok (a : List (String × JValue)) (fd : String × PyTy × String) :
    reqCheck (.jdict a) fd = .ok [] ↔ fieldTypeOk a fd.1 fd.2.1 = true := by
  rw [reqCheck_jdict]
  cases h : dictLookup a fd.1 with
  | none => simp [fieldTypeOk, h]
  | some v =>
    cases ht : typeMatches fd.2.1 v <;> simp [fieldTypeOk, h, ht]

theorem scanBytes_eq_nil (xs : List JValue) : ∀ i, scanBytes i xs = [] ↔ xs.all goodByte = true := by
  induction xs with
  | nil => intro i; simp [scanBytes]
  | cons v rest ih =>
    intro i
    cases hv : goodByte v <;> simp [scanBytes, hv, ih]

theorem seq2_eq_ok_nil (m1 m2 : Except PyErr (List Err)) :
    seq2 m1 m2 = .ok [] ↔ m1 = .ok [] ∧ m2 = .ok [] := by
  cases m1 <;> cases m2 <;> simp [seq2, List.append_eq_nil]

theorem subArray32Check_ok (p : List (String × JValue)) (k : String) (me : Err) (le : Nat → Err) :
    subArray32Check p k me le = .ok [] ↔ codeArr32 p k = true := by
  cases h : dictLookup p k with
  | none => simp [subArray32Check, codeArr32, h]
  | some v =>
    cases v with
    | jlist xs => by_cases hx : xs.length = 32 <;> simp [subArray32Check, codeArr32, h, hx]
    | jint n => simp [subArray32Check, codeArr32, h, pyLen]
    | jfloat q => simp [subArray32Check, codeArr32, h, pyLen]
    | jbool b => simp [subArray32Check, codeArr32, h, pyLen]
    | jnull => simp [subArray32Check, codeArr32, h, pyLen]
    | jstr s => simp [subArray32Check, codeArr32, h, pyLen]
    | jdict q => simp [subArray32Check, codeArr32, h, pyLen]

theorem pubkeyCheck_jdict_ok (a : List (String × JValue)) :
    pubkeyCheck (.jdict a) = .ok [] ↔ pkBlockOk a = true := by
  cases h : dictLookup a "custodian_pubkey" with
  | none => simp [pubkeyCheck, pyContains, h, pkBlockOk]
  | some v =>
    cases v with
    | jdict p =>
      simp [pubkeyCheck, pyContains, pyIndex, h, pkBlockOk, seq2_eq_ok_nil, subArray32Check_ok]
    | jint n => simp [pubkeyCheck, pyContains, pyIndex, h, pkBlockOk]
    | jfloat q => simp [pubkeyCheck, pyContains, pyIndex, h, pkBlockOk]
    | jbool b => simp [pubkeyCheck, pyContains, pyIndex, h, pkBlockOk]
    | jnull => simp [pubkeyCheck, pyContains, pyIndex, h, pkBlockOk]
    | jstr s => simp [pubkeyCheck, pyContains, pyIndex, h, pkBlockOk]
    | jlist xs => simp [pubkeyCheck, pyContains, pyIndex, h, pkBlockOk]

theorem signatureCheck_jdict_ok (a : List (String × JValue)) :
    signatureCheck (.jdict a) = .ok [] ↔ sigBlockOk a = true := by
  cases h : dictLookup a "signature" with
  | none => simp [signatureCheck, pyContains, h, sigBlockOk]
  | some v =>
    cases v with
    | jdict p =>
      simp [signatureCheck, pyContains, pyIndex, h, sigBlockOk, seq2_eq_ok_nil, subArray32Check_ok]
    | jint n => simp [signatureCheck, pyContains, pyIndex, h, sigBlockOk]
    | jfloat q => simp [signatureCheck, pyContains, pyIndex, h, sigBlockOk]
    | jbool b => simp [signatureCheck, pyContains, pyIndex, h, sigBlockOk]
    | jnull => simp [signatureCheck, pyContains, pyIndex, h, sigBlockOk]
    | jstr s => simp [signatureCheck, pyContains, pyIndex, h, sigBlockOk]
    | jlist xs => simp [signatureCheck, pyContains, pyIndex, h, sigBlockOk]

theorem msgHashCheck_jdict_ok (a : List (String × JValue)) :
    msgHashCheck (.jdict a) = .ok [] ↔ mhBlockOk a = true := by
  cases h : dictLookup a "message_hash" with
  | none => simp [msgHashCheck, pyContains, h, mhBlockOk]
  | some v =>
    cases v with
    | jlist xs =>
      by_cases hx : xs.length = 32 <;>
        simp [msgHashCheck, pyContains, pyIndex, h, mhBlockOk, hx, scanBytes_eq_nil]
    | jint n => simp [msgHashCheck, pyContains, pyIndex, h, mhBlockOk]
    | jfloat q => simp [msgHashCheck, pyContains, pyIndex, h, mhBlockOk]
    | jbool b => simp [msgHashCheck, pyContains, pyIndex, h, mhBlockOk]
    | jnull => simp [msgHashCheck, pyContains, pyIndex, h, mhBlockOk]
    | jstr s => simp [msgHashCheck, pyContains, pyIndex, h, mhBlockOk]
    | jdict q => simp [msgHashCheck, pyContains, pyIndex, h, mhBlockOk]

theorem aihStringErrors_eq_nil (s : String) :
    aihStringErrors s = [] ↔
      (decide ((hexRemainder s).length = 64) && (fromhexAux (hexRemainder s)).isSome) = true := by
  by_cases hl : (hexRemainder s).length = 64 <;>
    cases hf : fromhexAux (hexRemainder s) <;>
      simp [aihStringErrors, hl, hf]

theorem aihCheck_jdict_ok (a : List (String × JValue)) :
    aihCheck (.jdict a) = .ok [] ↔ aihBlockOk a = true := by
  cases h : dictLookup a "account_id_hash" with
  | none => simp [aihCheck, pyContains, h, aihBlockOk]
  | some v =>
    cases v with
    | jstr s => simp [aihCheck, pyContains, pyIndex, h, aihBlockOk, aihStringErrors_eq_nil]
    | jlist xs =>
      by_cases hl : xs.length = 32 <;> simp [aihCheck, pyContains, pyIndex, h, aihBlockOk, hl]
    | jint n => simp [aihCheck, pyContains, pyIndex, h, aihBlockOk]
    | jfloat q => simp [aihCheck, pyContains, pyIndex, h, aihBlockOk]
    | jbool b => simp [aihCheck, pyContains, pyIndex, h, aihBlockOk]
    | jnull => simp [aihCheck, pyContains, pyIndex, h, aihBlockOk]
    | jdict q => simp [aihCheck, pyContains, pyIndex, h, aihBlockOk]

theorem balanceCheck_jdict_ok (a : List (String × JValue)) :
    balanceCheck (.jdict a) = .ok [] ↔ balBlockOk a = true := by
  cases h : dictLookup a "balance_raw" with
  | none => simp [balanceCheck, pyContains, h, balBlockOk]
  | some v =>
    by_cases hi : isPyInt v = true
    · by_cases hneg : pyIntVal v < 0 <;>
        simp [balanceCheck, pyContains, pyIndex, h, balBlockOk, hi, hneg]
    · simp [balanceCheck, pyContains, pyIndex, h, balBlockOk, hi]

theorem currencyCheck_jdict_ok (a : List (String × JValue)) :
    currencyCheck (.jdict a) = .ok [] ↔ curBlockOk a = true := by
  cases h : dictLookup a "currency_code_int" with
  | none => simp [currencyCheck, pyContains, h, curBlockOk]
  | some v =>
    by_cases hi : isPyInt v = true
    · by_cases hr : pyIntVal v < 0 ∨ 4294967295 < pyIntVal v <;>
        simp [currencyCheck, pyContains, pyIndex, h, curBlockOk, hi, hr] <;> omega
    · simp [currencyCheck, pyContains, pyIndex, h, curBlockOk, hi]

theorem custodianCheck_jdict_ok (a : List (String × JValue)) :
    custodianCheck (.jdict a) = .ok [] ↔ cusBlockOk a = true := by
  cases h : dictLookup a "custodian_id" with
  | none => simp [custodianCheck, pyContains, h, cusBlockOk]
  | some v =>
    by_cases hi : isPyInt v = true
    · by_cases hr : pyIntVal v < 0 ∨ 4294967295 < pyIntVal v <;>
        simp [custodianCheck, pyContains, pyIndex, h, cusBlockOk, hi, hr] <;> omega
    · simp [custodianCheck, pyContains, pyIndex, h, cusBlockOk, hi]

theorem requiredPass_jdict_ok (a : List (String × JValue)) :
    requiredPass (.jdict a) = .ok [] ↔ reqOkB a = true := by
  unfold requiredPass reqOkB
  rw [concatMapM_eq_ok_nil, List.all_eq_true]
  constructor
  · intro h fd hfd; exact (reqCheck_jdict_ok a fd).mp (h fd hfd)
  · intro h fd hfd; exact (reqCheck_jdict_ok a fd).mpr (h fd hfd)

theorem reqCheck_not_ok_nil_nondict (att : JValue) (fd : String × PyTy × String)
    (hnd : ∀ a, att ≠ .jdict a) : reqCheck att fd ≠ .ok [] := by
  cases att with
  | jdict a => exact absurd rfl (hnd a)
  | jint n => simp [reqCheck, pyContains]
  | jfloat q => simp [reqCheck, pyContains]
  | jbool b => simp [reqCheck, pyContains]
  | jnull => simp [reqCheck, pyContains]
  | jstr s =>
    cases hs : hasSubstr fd.1.data s.data <;> simp [reqCheck, pyContains, pyIndex, hs]
  | jlist xs =>
    cases hs : (xs.any fun x => match x with | .jstr t => t = fd.1 | _ => false) <;>
      simp [reqCheck, pyContains, pyIndex, hs]

theorem requiredPass_ok_nil_is_jdict (att : JValue)
    (h : requiredPass att = .ok []) : ∃ a, att = .jdict a := by
  cases att with
  | jdict a => exact ⟨a, rfl⟩
  | jint n =>
    exact absurd ((concatMapM_eq_ok_nil _ _).mp h ("balance_raw", PyTy.int, "u64")
      (by simp [required_fields])) (reqCheck_not_ok_nil_nondict _ _ (by intro a ha; cases ha))
  | jfloat q =>
    exact absurd ((concatMapM_eq_ok_nil _ _).mp h ("balance_raw", PyTy.int, "u64")
      (by simp [required_fields])) (reqCheck_not_ok_nil_nondict _ _ (by intro a ha; cases ha))
  | jbool b =>
    exact absurd ((concatMapM_eq_ok_nil _ _).mp h ("balance_raw", PyTy.int, "u64")
      (by simp [required_fields])) (reqCheck_not_ok_nil_nondict _ _ (by intro a ha; cases ha))
  | jnull =>
    exact absurd ((concatMapM_eq_ok_nil _ _).mp h ("balance_raw", PyTy.int, "u64")
      (by simp [required_fields])) (reqCheck_not_ok_nil_nondict _ _ (by intro a ha; cases ha))
  | jstr s =>
    exact absurd ((concatMapM_eq_ok_nil _ _).mp h ("balance_raw", PyTy.int, "u64")
      (by simp [required_fields])) (reqCheck_not_ok_nil_nondict _ _ (by intro a ha; cases ha))
  | jlist xs =>
    exact absurd ((concatMapM_eq_ok_nil _ _).mp h ("balance_raw", PyTy.int, "u64")
      (by simp [required_fields])) (reqCheck_not_ok_nil_nondict _ _ (by intro a ha; cases ha))

theorem validate_blocks_not_nil_nondict (att : JValue) (hnd : ∀ a, att ≠ .jdict a) :
    concatMapM (fun chk => chk att) checkBlocks ≠ .ok [] := by
  intro hok
  have hreq : requiredPass att = .ok [] :=
    (concatMapM_eq_ok_nil _ _).mp hok requiredPass (by simp [checkBlocks])
  obtain ⟨a, ha⟩ := requiredPass_ok_nil_is_jdict att hreq
  exact hnd a ha

theorem glue_bal (a : List (String × JValue)) :
    (fieldTypeOk a "balance_raw" PyTy.int = true ∧ balBlockOk a = true) ↔ balDecl a = true := by
  cases h : dictLookup a "balance_raw" with
  | none => simp [fieldTypeOk, balBlockOk, balDecl, h]
  | some v =>
    cases hv : isPyInt v <;>
      simp [fieldTypeOk, balBlockOk, balDecl, h, typeMatches, hv, Int.not_lt]

theorem glue_cur (a : List (String × JValue)) :
    (fieldTypeOk a "currency_code_int" PyTy.int = true ∧ curBlockOk a = true) ↔
      u32Decl a "currency_code_int" = true := by
  cases h : dictLookup a "currency_code_int" with
  | none => simp [fieldTypeOk, curBlockOk, u32Decl, h]
  | some v =>
    cases hv : isPyInt v <;>
      simp [fieldTypeOk, curBlockOk, u32Decl, h, typeMatches, hv]

theorem glue_cus (a : List (String × JValue)) :
    (fieldTypeOk a "custodian_id" PyTy.int = true ∧ cusBlockOk a = true) ↔
      u32Decl a "custodian_id" = true := by
  cases h : dictLookup a "custodian_id" with
  | none => simp [fieldTypeOk, cusBlockOk, u32Decl, h]
  | some v =>
    cases hv : isPyInt v <;>
      simp [fieldTypeOk, cusBlockOk, u32Decl, h, typeMatches, hv]

theorem glue_intId (a : List (String × JValue)) (k : String) :
    fieldTypeOk a k PyTy.int = true ↔ intDecl a k = true := by
  cases h : dictLookup a k <;> simp [fieldTypeOk, intDecl, h, typeMatches]

theorem glue_aih (a : List (String × JValue)) :
    (fieldTypeOk a "account_id_hash" PyTy.str = true ∧ aihBlockOk a = true) ↔
      aihDecl a = true := by
  cases h : dictLookup a "account_id_hash" with
  | none => simp [fieldTypeOk, aihBlockOk, aihDecl, h]
  | some v =>
    cases v <;> simp [fieldTypeOk, aihBlockOk, aihDecl, h, typeMatches]

theorem glue_pk (a : List (String × JValue)) :
    (fieldTypeOk a "custodian_pubkey" PyTy.dict = true ∧ pkBlockOk a = true) ↔
      pkDecl a = true := by
  cases h : dictLookup a "custodian_pubkey" with
  | none => simp [fieldTypeOk, pkBlockOk, pkDecl, h]
  | some v =>
    cases v <;> simp [fieldTypeOk, pkBlockOk, pkDecl, h, typeMatches]

theorem glue_sig (a : List (String × JValue)) :
    (fieldTypeOk a "signature" PyTy.dict = true ∧ sigBlockOk a = true) ↔
      sigDecl a = true := by
  cases h : dictLookup a "signature" with
  | none => simp [fieldTypeOk, sigBlockOk, sigDecl, h]
  | some v =>
    cases v <;> simp [fieldTypeOk, sigBlockOk, sigDecl, h, typeMatches]

theorem glue_mh (a : List (String × JValue)) :
    (fieldTypeOk a "message_hash" PyTy.list = true ∧ mhBlockOk a = true) ↔
      mhDecl a = true := by
  cases h : dictLookup a "message_hash" with
  | none => simp [fieldTypeOk, mhBlockOk, mhDecl, h]
  | some v =>
    cases v <;> simp [fieldTypeOk, mhBlockOk, mhDecl, h, typeMatches]

theorem reqOkB_expand (a : List (String × JValue)) :
    reqOkB a = true ↔
      (fieldTypeOk a "balance_raw" PyTy.int = true ∧
       fieldTypeOk a "currency_code_int" PyTy.int = true ∧
       fieldTypeOk a "custodian_id" PyTy.int = true ∧
       fieldTypeOk a "attestation_id" PyTy.int = true ∧
       fieldTypeOk a "issued_at" PyTy.int = true ∧
       fieldTypeOk a "valid_until" PyTy.int = true ∧
       fieldTypeOk a "account_id_hash" PyTy.str = true ∧
       fieldTypeOk a "custodian_pubkey" PyTy.dict = true ∧
       fieldTypeOk a "signature" PyTy.dict = true ∧
       fieldTypeOk a "message_hash" PyTy.list = true) := by
  simp [reqOkB, required_fields, List.all_cons, Bool.and_eq_true, and_assoc]

theorem attBlocks_iff (a : List (String × JValue)) :
    (reqOkB a = true ∧ pkBlockOk a = true ∧ sigBlockOk a = true ∧ mhBlockOk a = true ∧
     aihBlockOk a = true ∧ balBlockOk a = true ∧ curBlockOk a = true ∧ cusBlockOk a = true) ↔
      attCodeValid a = true := by
  rw [reqOkB_expand]
  have g1 := glue_bal a
  have g2 := glue_cur a
  have g3 := glue_cus a
  have g4 := glue_intId a "attestation_id"
  have g5 := glue_intId a "issued_at"
  have g6 := glue_intId a "valid_until"
  have g7 := glue_aih a
  have g8 := glue_pk a
  have g9 := glue_sig a
  have g10 := glue_mh a
  simp only [attCodeValid, Bool.and_eq_true, and_assoc]
  constructor
  · rintro ⟨f1, f2, f3, f4, f5, f6, f7, f8, f9, f10, bpk, bsig, bmh, baih, bbal, bcur, bcus⟩
    exact ⟨g1.mp ⟨f1, bbal⟩, g2.mp ⟨f2, bcur⟩, g3.mp ⟨f3, bcus⟩, g4.mp f4, g5.mp f5, g6.mp f6,
      g7.mp ⟨f7, baih⟩, g8.mp ⟨f8, bpk⟩, g9.mp ⟨f9, bsig⟩, g10.mp ⟨f10, bmh⟩⟩
  · rintro ⟨d1, d2, d3, d4, d5, d6, d7, d8, d9, d10⟩
    obtain ⟨f1, bbal⟩ := g1.mpr d1
    obtain ⟨f2, bcur⟩ := g2.mpr d2
    obtain ⟨f3, bcus⟩ := g3.mpr d3
    obtain ⟨f7, baih⟩ := g7.mpr d7
    obtain ⟨f8, bpk⟩ := g8.mpr d8
    obtain ⟨f9, bsig⟩ := g9.mpr d9
    obtain ⟨f10, bmh⟩ := g10.mpr d10
    exact ⟨f1, f2, f3, g4.mpr d4, g5.mpr d5, g6.mpr d6, f7, f8, f9, f10,
      bpk, bsig, bmh, baih, bbal, bcur, bcus⟩

theorem validate_ok_iff (doc : JValue) :
    validate_attestation doc = .ok [] ↔ codeValid doc = true := by
  cases doc with
  | jint n => simp [validate_attestation, pyContains, codeValid]
  | jfloat q => simp [validate_attestation, pyContains, codeValid]
  | jbool b => simp [validate_attestation, pyContains, codeValid]
  | jnull => simp [validate_attestation, pyContains, codeValid]
  | jstr s =>
    cases hs : hasSubstr "attestation".data s.data <;>
      simp [validate_attestation, pyContains, pyIndex, hs, codeValid]
  | jlist xs =>
    cases hs : (xs.any fun x => match x with | .jstr t => t = "attestation" | _ => false) <;>
      simp [validate_attestation, pyContains, pyIndex, hs, codeValid]
  | jdict d =>
    cases h : dictLookup d "attestation" with
    | none => simp [validate_attestation, pyContains, h, codeValid]
    | some att =>
      have hv : validate_attestation (.jdict d) = concatMapM (fun chk => chk att) checkBlocks := by
        simp [validate_attestation, pyContains, pyIndex, h]
      rw [hv]
      cases att with
      | jdict a =>
        rw [concatMapM_eq_ok_nil]
        have hexp : (∀ chk ∈ checkBlocks, chk (JValue.jdict a) = .ok []) ↔
            (requiredPass (.jdict a) = .ok [] ∧ pubkeyCheck (.jdict a) = .ok [] ∧
             signatureCheck (.jdict a) = .ok [] ∧ msgHashCheck (.jdict a) = .ok [] ∧
             aihCheck (.jdict a) = .ok [] ∧ balanceCheck (.jdict a) = .ok [] ∧
             currencyCheck (.jdict a) = .ok [] ∧ custodianCheck (.jdict a) = .ok []) := by
          simp [checkBlocks, List.forall_mem_cons]
        rw [hexp, requiredPass_jdict_ok, pubkeyCheck_jdict_ok, signatureCheck_jdict_ok,
          msgHashCheck_jdict_ok, aihCheck_jdict_ok, balanceCheck_jdict_ok,
          currencyCheck_jdict_ok, custodianCheck_jdict_ok, attBlocks_iff]
        simp [codeValid, h]
      | jint n =>
        constructor
        · intro hok
          exact absurd hok (validate_blocks_not_nil_nondict _ (by intro a ha; cases ha))
        · intro hcv
          rw [show codeValid (JValue.jdict d) = false from by simp [codeValid, h]] at hcv
          cases hcv
      | jfloat q =>
        constructor
        · intro hok
          exact absurd hok (validate_blocks_not_nil_nondict _ (by intro a ha; cases ha))
        · intro hcv
          rw [show codeValid (JValue.jdict d) = false from by simp [codeValid, h]] at hcv
          cases hcv
      | jbool b =>
        constructor
        · intro hok
          exact absurd hok (validate_blocks_not_nil_nondict _ (by intro a ha; cases ha))
        · intro hcv
          rw [show codeValid (JValue.jdict d) = false from by simp [codeValid, h]] at hcv
          cases hcv
      | jnull =>
        constructor
        · intro hok
          exact absurd hok (validate_blocks_not_nil_nondict _ (by intro a ha; cases ha))
        · intro hcv
          rw [show codeValid (JValue.jdict d) = false from by simp [codeValid, h]] at hcv
          cases hcv
      | jstr s =>
        constructor
        · intro hok
          exact absurd hok (validate_blocks_not_nil_nondict _ (by intro a ha; cases ha))
        · intro hcv
          rw [show codeValid (JValue.jdict d) = false from by simp [codeValid, h]] at hcv
          cases hcv
      | jlist ys =>
        constructor
        · intro hok
          exact absurd hok (validate_blocks_not_nil_nondict _ (by intro a ha; cases ha))
        · intro hcv
          rw [show codeValid (JValue.jdict d) = false from by simp [codeValid, h]] at hcv
          cases hcv

theorem aihCheck_aihAtt (s : String) : aihCheck (aihAtt s) = .ok (aihStringErrors s) := rfl

theorem msgHashCheck_mhAtt_32 (xs : List JValue) (h : xs.length = 32) :
    msgHashCheck (mhAtt xs) = .ok (scanBytes 0 xs) := by
  have hl : dictLookup [("message_hash", JValue.jlist xs)] "message_hash" =
      some (JValue.jlist xs) := rfl
  simp [msgHashCheck, mhAtt, pyContains, pyIndex, hl, h]

theorem removeprefixL_not_pre (s p : List Char) (h : p.isPrefixOf s = false) :
    removeprefixL s p = s := by
  simp [removeprefixL, h]

theorem removeprefixL_pre (p s : List Char) : removeprefixL (p ++ s) p = s := by
  have hp : p.isPrefixOf (p ++ s) = true := by
    rw [List.isPrefixOf_iff_prefix]
    exact ⟨s, rfl⟩
  simp [removeprefixL, hp, List.drop_left]

theorem not_prefix_two_of_all_hex (l : List Char) (c : Char) (hc : isHexChar c = false)
    (hhex : l.all isHexChar = true) : (['0', c].isPrefixOf l) = false := by
  cases l with
  | nil => rfl
  | cons a t =>
    cases t with
    | nil => simp [List.isPrefixOf]
    | cons b t2 =>
      simp only [List.all_cons, Bool.and_eq_true] at hhex
      have hb : isHexChar b = true := hhex.2.1
      cases hcb : (c == b) with
      | true =>
        have hcb2 : c = b := eq_of_beq hcb
        rw [hcb2, hb] at hc
        cases hc
      | false => simp [List.isPrefixOf, hcb]

theorem isHexChar_not_space (c : Char) (h : isHexChar c = true) : isPySpace c = false := by
  cases hs : isPySpace c with
  | false => rfl
  | true =>
    exfalso
    simp only [isPySpace, Bool.or_eq_true, beq_iff_eq] at hs
    rcases hs with ((((rfl | rfl) | rfl) | rfl) | rfl) | rfl <;> exact absurd h (by decide)

theorem fromhex_isSome_of_all_hex :
    ∀ (n : Nat) (l : List Char), l.length ≤ n → l.all isHexChar = true →
      l.length % 2 = 0 → (fromhexAux l).isSome = true := by
  intro n
  induction n with
  | zero =>
    intro l hl _ _
    have h0 : l = [] := List.eq_nil_of_length_eq_zero (Nat.le_zero.mp hl)
    subst h0; rfl
  | succ n ih =>
    intro l hl hall hev
    match l with
    | [] => rfl
    | [c] => simp at hev
    | c :: c2 :: rest =>
      simp only [List.all_cons, Bool.and_eq_true] at hall
      obtain ⟨hc, hc2, hrest⟩ := hall
      have hns : isPySpace c = false := isHexChar_not_space c hc
      obtain ⟨h1, hv1⟩ : ∃ h1, hexVal c = some h1 := by
        cases hx : hexVal c with
        | none => unfold isHexChar at hc; rw [hx] at hc; cases hc
        | some h1 => exact ⟨h1, rfl⟩
      obtain ⟨h2, hv2⟩ : ∃ h2, hexVal c2 = some h2 := by
        cases hx : hexVal c2 with
        | none => unfold isHexChar at hc2; rw [hx] at hc2; cases hc2
        | some h2 => exact ⟨h2, rfl⟩
      have hlen2 : rest.length ≤ n := by
        simp only [List.length_cons] at hl
        omega
      have hev2 : rest.length % 2 = 0 := by
        simp only [List.length_cons] at hev
        omega
      have hs := ih rest hlen2 hrest hev2
      obtain ⟨bs, hbs⟩ := Option.isSome_iff_exists.mp hs
      simp [fromhexAux, hns, hv1, hv2, hbs]

theorem aihAtt_ok (s : String) (h64 : (hexRemainder s).length = 64)
    (hsome : (fromhexAux (hexRemainder s)).isSome = true) :
    aihCheck (aihAtt s) = .ok [] := by
  rw [aihCheck_aihAtt]
  rw [(aihStringErrors_eq_nil s).mpr (by simp [h64, hsome])]

theorem scanBytes_first_bad :
    ∀ (xs : List JValue) (i k : Nat), k < xs.length →
      (∀ j, j < k → goodByte (xs.getD j .jnull) = true) →
      goodByte (xs.getD k .jnull) = false →
      scanBytes i xs = [Err.msgHashByte (i + k) (xs.getD k .jnull)] := by
  intro xs
  induction xs with
  | nil => intro i k hk; simp at hk
  | cons v rest ih =>
    intro i k hk hgood hbad
    cases k with
    | zero =>
      have hv : goodByte v = false := by simpa using hbad
      simp [scanBytes, hv]
    | succ k2 =>
      have hv : goodByte v = true := by simpa using hgood 0 (Nat.succ_pos k2)
      have hk2 : k2 < rest.length := by simpa using hk
      have hgood2 : ∀ j, j < k2 → goodByte (rest.getD j .jnull) = true := by
        intro j hj
        simpa using hgood (j + 1) (by omega)
      have hbad2 : goodByte (rest.getD k2 .jnull) = false := by simpa using hbad
      have heq : i + 1 + k2 = i + (k2 + 1) := by omega
      simp only [scanBytes, hv, if_pos]
      rw [ih (i + 1) k2 hk2 hgood2 hbad2, heq]
      simp

theorem concatMapM_ok_of_f_ok (f : α → Except PyErr (List Err)) (l : List α)
    (hf : ∀ x ∈ l, ∃ ex, f x = .ok ex) : ∃ out, concatMapM f l = .ok out := by
  induction l with
  | nil => exact ⟨[], rfl⟩
  | cons x xs ih =>
    obtain ⟨ex, hex⟩ := hf x (by simp)
    obtain ⟨out, hout⟩ := ih fun y hy => hf y (by simp [hy])
    exact ⟨ex ++ out, by simp [concatMapM, hex, hout]⟩

theorem reqCheck_jdict_exists (a : List (String × JValue)) (fd : String × PyTy × String) :
    ∃ ex, reqCheck (.jdict a) fd = .ok ex := by
  rw [reqCheck_jdict]
  rcases h : dictLookup a fd.1 with _ | v
  · exact ⟨_, rfl⟩
  · by_cases ht : typeMatches fd.2.1 v = true
    · exact ⟨[], by simp [ht]⟩
    · exact ⟨[Err.wrongType fd.1 fd.2.1 v], by simp [ht]⟩

/-!
## Claim theorems
-/

/-- C1 (counterexample): spec section 3 as the claim enumerates it accepts
an `account_id_hash` given as a 32-element byte array, but `validate`
returns a non-empty list on such a document (the step-2 type table demands
a string), so "empty error list iff all section-3 invariants hold" is
false. -/
theorem C1_counterexample :
    specClaimValid docAihArray = true ∧
      validate_attestation docAihArray =
        .ok [Err.wrongType "account_id_hash" PyTy.str (.jlist bytes32)] :=
  ⟨rfl, rfl⟩

/-- C1 (amended): `validate` returns the empty error list iff the document
is an object whose `attestation` member is an object in which every field
invariant that the code actually enforces holds: the six integer fields are
present as Python ints (booleans included), `balance_raw ≥ 0`,
`currency_code_int` and `custodian_id` fit in u32, `account_id_hash` is a
string whose remainder after stripping a leading "0x" and then a leading
"0X" has 64 characters and decodes as hex, `custodian_pubkey` and
`signature` are objects whose `x`/`y` resp. `r`/`s` members are arrays of
exactly 32 elements (element values unchecked), and `message_hash` is an
array of exactly 32 Python ints in [0,255]. -/
theorem C1_amended (doc : JValue) :
    validate_attestation doc = .ok [] ↔ codeValid doc = true :=
  validate_ok_iff doc

/-- C2 (code bug): the spec promises the validator never throws, but on a
document whose `custodian_pubkey.x` is present and not a list and has no
`len` (here the integer 0), the error-message computation
`len(pubkey.get('x', []))` raises `TypeError`. -/
theorem C2_crash_on_unsized_x :
    validate_attestation docXNotList = .error PyErr.typeError := rfl

/-- C3 (counterexample): on the non-object document `0`, `validate` does
not return a one-element error list — the membership test
`"attestation" not in 0` raises `TypeError`. -/
theorem C3_counterexample :
    validate_attestation (JValue.jint 0) = .error PyErr.typeError ∧
      validate_attestation (JValue.jint 0) ≠ .ok [Err.missingAttestation] := by
  have h1 : validate_attestation (JValue.jint 0) = .error PyErr.typeError := rfl
  refine ⟨h1, ?_⟩
  rw [h1]
  intro h
  cases h

/-- C3 (amended): if the document is an object lacking the `attestation`
key, `validate` returns exactly the one missing-attestation error and
performs no further checks, regardless of any other malformation. -/
theorem C3_amended (d : List (String × JValue)) (h : dictLookup d "attestation" = none) :
    validate_attestation (.jdict d) = .ok [Err.missingAttestation] := by
  simp [validate_attestation, pyContains, h]

/-- Witness for C3: an object without `attestation` but with a malformed
`custodian_pubkey` (which would crash the pubkey pass if it ran) still
yields exactly the single missing-attestation error. -/
theorem C3_witness :
    dictLookup [("custodian_pubkey", JValue.jint 0)] "attestation" = none ∧
      validate_attestation (.jdict [("custodian_pubkey", JValue.jint 0)]) =
        .ok [Err.missingAttestation] :=
  ⟨rfl, C3_amended _ rfl⟩

/-- C4 (counterexample): a document identical to a fully valid one except
that `custodian_pubkey.x[0]` is 256 (not a byte) is accepted with an empty
error list — the element-range invariant is not applied to the pubkey
arrays. -/
theorem C4_counterexample :
    validate_attestation docX256 = .ok [] ∧ specByte (JValue.jint 256) = false :=
  ⟨rfl, rfl⟩

/-- C4 (amended): whatever the elements of `custodian_pubkey.x`/`.y` and
`signature.r`/`.s` are — out-of-range integers or non-integers — a
document that is otherwise fully valid passes with an empty error list as
long as the four arrays have length 32: only `message_hash` is
element-range-checked. -/
theorem C4_amended (vx vy vr vs : List JValue)
    (hx : vx.length = 32) (hy : vy.length = 32) (hr : vr.length = 32) (hs : vs.length = 32) :
    validate_attestation (mkDoc (attArrays vx vy vr vs)) = .ok [] := by
  rw [validate_ok_iff]
  have hcv : codeValid (mkDoc (attArrays vx vy vr vs)) =
      (((decide (vx.length = 32) && decide (vy.length = 32)) &&
        (decide (vr.length = 32) && decide (vs.length = 32))) && true) := rfl
  rw [hcv, hx, hy, hr, hs]
  simp

/-- Witness for C4: arrays holding 300, -1, a string and a null in place of
bytes are still accepted. -/
theorem C4_witness :
    validate_attestation (mkDoc (attArrays
      (JValue.jint 300 :: List.replicate 31 (JValue.jint 0))
      (JValue.jint (-1) :: List.replicate 31 (JValue.jint 0))
      (JValue.jstr "no" :: List.replicate 31 (JValue.jint 0))
      (JValue.jnull :: List.replicate 31 (JValue.jint 0)))) = .ok [] :=
  C4_amended _ _ _ _ (by decide) (by decide) (by decide) (by decide)

/-- C5 (counterexample): the code strips "0x" and then "0X", so the string
"0x0X" + 64 hex chars is accepted with no error, although stripping at
most one prefix leaves a 66-character remainder that the claim says must
be rejected. -/
theorem C5_counterexample :
    validate_attestation docDoublePre = .ok [] ∧
      (stripOne ("0x0X" ++ hex64).data).length = 66 :=
  ⟨rfl, rfl⟩

/-- C5 (amended): the validator strips a leading "0x" if present and THEN
a leading "0X" if present (so both prefixes of a string starting "0x0X"
are removed), and requires the remainder to be 64 hex-decodable
characters; a bare 64-hex-char string and its "0x"-, "0X"- and
"0x0X"-prefixed forms are all accepted with no error for this field. -/
theorem C5_amended (l : List Char) (hlen : l.length = 64) (hhex : l.all isHexChar = true) :
    aihCheck (aihAtt ⟨l⟩) = .ok [] ∧
    aihCheck (aihAtt ⟨'0' :: 'x' :: l⟩) = .ok [] ∧
    aihCheck (aihAtt ⟨'0' :: 'X' :: l⟩) = .ok [] ∧
    aihCheck (aihAtt ⟨'0' :: 'x' :: '0' :: 'X' :: l⟩) = .ok [] := by
  have hx : (['0', 'x'].isPrefixOf l) = false := not_prefix_two_of_all_hex l 'x' rfl hhex
  have hX : (['0', 'X'].isPrefixOf l) = false := not_prefix_two_of_all_hex l 'X' rfl hhex
  have hsome : (fromhexAux l).isSome = true :=
    fromhex_isSome_of_all_hex l.length l le_rfl hhex (by omega)
  have hrem1 : hexRemainder ⟨l⟩ = l := by
    show removeprefixL (removeprefixL l ['0', 'x']) ['0', 'X'] = l
    rw [removeprefixL_not_pre l _ hx, removeprefixL_not_pre l _ hX]
  have hrem2 : hexRemainder ⟨'0' :: 'x' :: l⟩ = l := by
    show removeprefixL (removeprefixL (['0', 'x'] ++ l) ['0', 'x']) ['0', 'X'] = l
    rw [removeprefixL_pre, removeprefixL_not_pre l _ hX]
  have hrem3 : hexRemainder ⟨'0' :: 'X' :: l⟩ = l := by
    show removeprefixL (removeprefixL (['0', 'X'] ++ l) ['0', 'x']) ['0', 'X'] = l
    have hnp : (['0', 'x'].isPrefixOf (['0', 'X'] ++ l)) = false := by
      simp [List.isPrefixOf]
    rw [removeprefixL_not_pre _ _ hnp, removeprefixL_pre]
  have hrem4 : hexRemainder ⟨'0' :: 'x' :: '0' :: 'X' :: l⟩ = l := by
    show removeprefixL (removeprefixL (['0', 'x'] ++ ('0' :: 'X' :: l)) ['0', 'x']) ['0', 'X'] = l
    rw [removeprefixL_pre]
    exact removeprefixL_pre ['0', 'X'] l
  refine ⟨aihAtt_ok _ ?_ ?_, aihAtt_ok _ ?_ ?_, aihAtt_ok _ ?_ ?_, aihAtt_ok _ ?_ ?_⟩
  · rw [hrem1]; exact hlen
  · rw [hrem1]; exact hsome
  · rw [hrem2]; exact hlen
  · rw [hrem2]; exact hsome
  · rw [hrem3]; exact hlen
  · rw [hrem3]; exact hsome
  · rw [hrem4]; exact hlen
  · rw [hrem4]; exact hsome

/-- Witness for C5: the concrete 64-hex string of `hex64` in all four
forms. -/
theorem C5_witness :
    (hex64.data.length = 64 ∧ hex64.data.all isHexChar = true) ∧
      (aihCheck (aihAtt ⟨hex64.data⟩) = .ok [] ∧
       aihCheck (aihAtt ⟨'0' :: 'x' :: hex64.data⟩) = .ok [] ∧
       aihCheck (aihAtt ⟨'0' :: 'X' :: hex64.data⟩) = .ok [] ∧
       aihCheck (aihAtt ⟨'0' :: 'x' :: '0' :: 'X' :: hex64.data⟩) = .ok []) :=
  ⟨⟨by decide, by decide⟩, C5_amended hex64.data (by decide) (by decide)⟩

/-- C6 (confirmed): for a string `account_id_hash`, the 64-length check and
the hex-decode check run independently — both errors when the remainder is
short AND non-decodable, only the length error when it is short but
decodable, only the decode error when it is 64 characters but
non-decodable. -/
theorem C6_hex_checks_independent (s : String) :
    ((hexRemainder s).length ≠ 64 → fromhexAux (hexRemainder s) = none →
        aihCheck (aihAtt s) = .ok [Err.aihHexLen (hexRemainder s).length, Err.aihNotHex s]) ∧
    ((hexRemainder s).length ≠ 64 → (fromhexAux (hexRemainder s)).isSome = true →
        aihCheck (aihAtt s) = .ok [Err.aihHexLen (hexRemainder s).length]) ∧
    ((hexRemainder s).length = 64 → fromhexAux (hexRemainder s) = none →
        aihCheck (aihAtt s) = .ok [Err.aihNotHex s]) := by
  refine ⟨?_, ?_, ?_⟩ <;> intro h1 h2 <;> rw [aihCheck_aihAtt]
  · simp [aihStringErrors, h1, h2]
  · obtain ⟨bs, hbs⟩ := Option.isSome_iff_exists.mp h2
    simp [aihStringErrors, h1, hbs]
  · simp [aihStringErrors, h1, h2]

/-- Witness for C6: "zz" (short, non-hex) yields the two errors; a
64-character non-hex string yields exactly the decode error. -/
theorem C6_witness :
    aihCheck (aihAtt "zz") = .ok [Err.aihHexLen 2, Err.aihNotHex "zz"] ∧
      aihCheck (aihAtt "zaaaaaaaaaaaaaaaaaaaaaaaaaaaaaaaaaaaaaaaaaaaaaaaaaaaaaaaaaaaaaaa") =
        .ok [Err.aihNotHex "zaaaaaaaaaaaaaaaaaaaaaaaaaaaaaaaaaaaaaaaaaaaaaaaaaaaaaaaaaaaaaaa"] :=
  ⟨(C6_hex_checks_independent "zz").1 (by decide) (by decide),
   (C6_hex_checks_independent _).2.2 (by decide) (by decide)⟩

/-- C7 (confirmed): in the required-field pass each of the ten fields is
checked independently — a field's contribution depends only on its own
value (never on the other fields), is exactly one "missing" error when
absent, exactly one "wrong type" error when present with the wrong
`isinstance` type, nothing otherwise, and every error a field contributes
appears in the pass output whatever the other fields look like. -/
theorem C7_required_pass_independent (a a2 : List (String × JValue))
    (fd : String × PyTy × String) (hfd : fd ∈ required_fields) :
    (dictLookup a fd.1 = dictLookup a2 fd.1 →
        reqCheck (.jdict a) fd = reqCheck (.jdict a2) fd) ∧
    (dictLookup a fd.1 = none →
        reqCheck (.jdict a) fd = .ok [Err.missingField fd.1 fd.2.2]) ∧
    (∀ v, dictLookup a fd.1 = some v → typeMatches fd.2.1 v = false →
        reqCheck (.jdict a) fd = .ok [Err.wrongType fd.1 fd.2.1 v]) ∧
    (∀ v, dictLookup a fd.1 = some v → typeMatches fd.2.1 v = true →
        reqCheck (.jdict a) fd = .ok []) ∧
    (∀ es, reqCheck (.jdict a) fd = .ok es →
        ∃ out, requiredPass (.jdict a) = .ok out ∧ ∀ e ∈ es, e ∈ out) := by
  refine ⟨?_, ?_, ?_, ?_, ?_⟩
  · intro h
    rw [reqCheck_jdict, reqCheck_jdict, h]
  · intro h
    rw [reqCheck_jdict, h]
  · intro v h ht
    rw [reqCheck_jdict, h]
    simp [ht]
  · intro v h ht
    rw [reqCheck_jdict, h]
    simp [ht]
  · intro es hes
    obtain ⟨out, hout⟩ :=
      concatMapM_ok_of_f_ok (reqCheck (.jdict a)) required_fields
        fun fd2 _ => reqCheck_jdict_exists a fd2
    refine ⟨out, hout, ?_⟩
    intro e he
    rw [mem_concatMapM _ _ _ hout]
    exact ⟨fd, hfd, es, hes, he⟩

/-- Witness for C7: the balance entry of the table on the empty attestation
object. -/
theorem C7_witness :
    ("balance_raw", PyTy.int, "u64") ∈ required_fields ∧
      reqCheck (.jdict []) ("balance_raw", PyTy.int, "u64") =
        .ok [Err.missingField "balance_raw" "u64"] :=
  ⟨by decide, (C7_required_pass_independent [] [] _ (by decide)).2.1 rfl⟩

/-- C8 (confirmed): on a 32-element `message_hash`, the scan walks in index
order and stops at the first element that is not an int in [0,255],
emitting exactly one error carrying that index and value; elements after
the first bad index are never examined (any list agreeing up to that index
gives the identical single error). -/
theorem C8_first_bad_byte (xs : List JValue) (k : Nat)
    (hlen : xs.length = 32) (hk : k < 32)
    (hgood : ∀ j, j < k → goodByte (xs.getD j .jnull) = true)
    (hbad : goodByte (xs.getD k .jnull) = false) :
    msgHashCheck (mhAtt xs) = .ok [Err.msgHashByte k (xs.getD k .jnull)] ∧
    ∀ ys : List JValue, ys.length = 32 →
      (∀ j, j ≤ k → ys.getD j .jnull = xs.getD j .jnull) →
      msgHashCheck (mhAtt ys) = .ok [Err.msgHashByte k (xs.getD k .jnull)] := by
  constructor
  · rw [msgHashCheck_mhAtt_32 xs hlen,
      scanBytes_first_bad xs 0 k (by omega) hgood hbad]
    simp
  · intro ys hys hagree
    have hgood2 : ∀ j, j < k → goodByte (ys.getD j .jnull) = true := by
      intro j hj
      rw [hagree j (by omega)]
      exact hgood j hj
    have hbad2 : goodByte (ys.getD k .jnull) = false := by
      rw [hagree k (by omega)]
      exact hbad
    rw [msgHashCheck_mhAtt_32 ys hys,
      scanBytes_first_bad ys 0 k (by omega) hgood2 hbad2, hagree k (by omega)]
    simp

/-- Witness for C8: a 32-int array whose element at index 5 is 256 yields
the single error naming index 5 and value 256. -/
theorem C8_witness :
    msgHashCheck (mhAtt mhBad5) = .ok [Err.msgHashByte 5 (JValue.jint 256)] :=
  (C8_first_bad_byte mhBad5 5 (by decide) (by decide) (by decide) (by decide)).1

/-- C10 (confirmed): a document whose integer fields and two
`message_hash` elements are JSON booleans is accepted with no error at
all, because the validator's `isinstance(..., int)` treats `True` as 1 and
`False` as 0. -/
theorem C10_bools_accepted :
    validate_attestation docBools = .ok [] ∧
      isPyInt (JValue.jbool true) = true ∧ isPyInt (JValue.jbool false) = true ∧
      pyIntVal (JValue.jbool true) = 1 ∧ pyIntVal (JValue.jbool false) = 0 :=
  ⟨rfl, rfl, rfl, rfl, rfl⟩

/-!
## Output-shape lemmas for claim C9
-/

theorem seq2_mem (m1 m2 : Except PyErr (List Err)) (out : List Err)
    (h : seq2 m1 m2 = .ok out) (e : Err) :
    e ∈ out ↔ (∃ e1, m1 = .ok e1 ∧ e ∈ e1) ∨ (∃ e2, m2 = .ok e2 ∧ e ∈ e2) := by
  cases m1 with
  | error e1 => cases h
  | ok l1 =>
    cases m2 with
    | error e2 => cases h
    | ok l2 =>
      have hout : out = l1 ++ l2 := by
        unfold seq2 at h
        injection h with h
        exact h.symm
      subst hout
      simp [List.mem_append]

theorem reqCheck_out_not_num (att : JValue) (fd : String × PyTy × String) (es : List Err)
    (h : reqCheck att fd = .ok es) (e : Err) (he : e ∈ es) : numErr e = false := by
  unfold reqCheck at h
  split at h
  · cases h
  · injection h with h; subst h
    simp at he; subst he; rfl
  · split at h
    · cases h
    · split at h
      · injection h with h; subst h; cases he
      · injection h with h; subst h
        simp at he; subst he; rfl

theorem requiredPass_out_not_num (att : JValue) (es : List Err)
    (h : requiredPass att = .ok es) (e : Err) (he : e ∈ es) : numErr e = false := by
  rw [mem_concatMapM _ _ _ h] at he
  obtain ⟨fd, _, ex, hex, hee⟩ := he
  exact reqCheck_out_not_num att fd ex hex e hee

theorem subArray32Check_out_not_num (p : List (String × JValue)) (k : String)
    (me : Err) (le : Nat → Err) (es : List Err) (h : subArray32Check p k me le = .ok es)
    (hme : numErr me = false) (hle : ∀ n, numErr (le n) = false)
    (e : Err) (he : e ∈ es) : numErr e = false := by
  unfold subArray32Check at h
  split at h
  · injection h with h; subst h
    simp at he; subst he; exact hme
  · split at h
    · injection h with h; subst h; cases he
    · injection h with h; subst h
      simp at he; subst he; exact hle _
  · split at h
    · cases h
    · injection h with h; subst h
      simp at he; subst he; exact hle _

theorem pubkeyCheck_jdict_none (a : List (String × JValue))
    (hl : dictLookup a "custodian_pubkey" = none) : pubkeyCheck (.jdict a) = .ok [] := by
  simp [pubkeyCheck, pyContains, hl]

theorem pubkeyCheck_jdict_dict (a p : List (String × JValue))
    (hl : dictLookup a "custodian_pubkey" = some (.jdict p)) :
    pubkeyCheck (.jdict a) =
      seq2 (subArray32Check p "x" (Err.pubkeyMissing "x") (Err.pubkeyLen "x"))
        (subArray32Check p "y" (Err.pubkeyMissing "y") (Err.pubkeyLen "y")) := by
  simp [pubkeyCheck, pyContains, pyIndex, hl]

theorem pubkeyCheck_out_not_num (a : List (String × JValue)) (es : List Err)
    (h : pubkeyCheck (.jdict a) = .ok es) (e : Err) (he : e ∈ es) : numErr e = false := by
  cases hl : dictLookup a "custodian_pubkey" with
  | none =>
    rw [pubkeyCheck_jdict_none a hl] at h
    injection h with h; subst h; cases he
  | some v =>
    cases v with
    | jdict p =>
      rw [pubkeyCheck_jdict_dict a p hl] at h
      rw [seq2_mem _ _ _ h] at he
      rcases he with ⟨e1, he1, hee⟩ | ⟨e2, he2, hee⟩
      · exact subArray32Check_out_not_num p "x" _ _ e1 he1 rfl (fun n => rfl) e hee
      · exact subArray32Check_out_not_num p "y" _ _ e2 he2 rfl (fun n => rfl) e hee
    | jint n =>
      rw [show pubkeyCheck (.jdict a) = .ok [] from by
        simp [pubkeyCheck, pyContains, pyIndex, hl]] at h
      injection h with h; subst h; cases he
    | jfloat q =>
      rw [show pubkeyCheck (.jdict a) = .ok [] from by
        simp [pubkeyCheck, pyContains, pyIndex, hl]] at h
      injection h with h; subst h; cases he
    | jbool b =>
      rw [show pubkeyCheck (.jdict a) = .ok [] from by
        simp [pubkeyCheck, pyContains, pyIndex, hl]] at h
      injection h with h; subst h; cases he
    | jnull =>
      rw [show pubkeyCheck (.jdict a) = .ok [] from by
        simp [pubkeyCheck, pyContains, pyIndex, hl]] at h
      injection h with h; subst h; cases he
    | jstr s =>
      rw [show pubkeyCheck (.jdict a) = .ok [] from by
        simp [pubkeyCheck, pyContains, pyIndex, hl]] at h
      injection h with h; subst h; cases he
    | jlist xs =>
      rw [show pubkeyCheck (.jdict a) = .ok [] from by
        simp [pubkeyCheck, pyContains, pyIndex, hl]] at h
      injection h with h; subst h; cases he

theorem signatureCheck_jdict_none (a : List (String × JValue))
    (hl : dictLookup a "signature" = none) : signatureCheck (.jdict a) = .ok [] := by
  simp [signatureCheck, pyContains, hl]

theorem signatureCheck_jdict_dict (a p : List (String × JValue))
    (hl : dictLookup a "signature" = some (.jdict p)) :
    signatureCheck (.jdict a) =
      seq2 (subArray32Check p "r" (Err.sigMissing "r") (Err.sigLen "r"))
        (subArray32Check p "s" (Err.sigMissing "s") (Err.sigLen "s")) := by
  simp [signatureCheck, pyContains, pyIndex, hl]

theorem signatureCheck_out_not_num (a : List (String × JValue)) (es : List Err)
    (h : signatureCheck (.jdict a) = .ok es) (e : Err) (he : e ∈ es) : numErr e = false := by
  cases hl : dictLookup a "signature" with
  | none =>
    rw [signatureCheck_jdict_none a hl] at h
    injection h with h; subst h; cases he
  | some v =>
    cases v with
    | jdict p =>
      rw [signatureCheck_jdict_dict a p hl] at h
      rw [seq2_mem _ _ _ h] at he
      rcases he with ⟨e1, he1, hee⟩ | ⟨e2, he2, hee⟩
      · exact subArray32Check_out_not_num p "r" _ _ e1 he1 rfl (fun n => rfl) e hee
      · exact subArray32Check_out_not_num p "s" _ _ e2 he2 rfl (fun n => rfl) e hee
    | jint n =>
      rw [show signatureCheck (.jdict a) = .ok [] from by
        simp [signatureCheck, pyContains, pyIndex, hl]] at h
      injection h with h; subst h; cases he
    | jfloat q =>
      rw [show signatureCheck (.jdict a) = .ok [] from by
        simp [signatureCheck, pyContains, pyIndex, hl]] at h
      injection h with h; subst h; cases he
    | jbool b =>
      rw [show signatureCheck (.jdict a) = .ok [] from by
        simp [signatureCheck, pyContains, pyIndex, hl]] at h
      injection h with h; subst h; cases he
    | jnull =>
      rw [show signatureCheck (.jdict a) = .ok [] from by
        simp [signatureCheck, pyContains, pyIndex, hl]] at h
      injection h with h; subst h; cases he
    | jstr s =>
      rw [show signatureCheck (.jdict a) = .ok [] from by
        simp [signatureCheck, pyContains, pyIndex, hl]] at h
      injection h with h; subst h; cases he
    | jlist xs =>
      rw [show signatureCheck (.jdict a) = .ok [] from by
        simp [signatureCheck, pyContains, pyIndex, hl]] at h
      injection h with h; subst h; cases he

theorem scanBytes_mem (e : Err) :
    ∀ (xs : List JValue) (i : Nat), e ∈ scanBytes i xs → ∃ j v, e = Err.msgHashByte j v := by
  intro xs
  induction xs with
  | nil => intro i he; cases he
  | cons v rest ih =>
    intro i he
    by_cases hv : goodByte v = true
    · rw [scanBytes, if_pos hv] at he
      exact ih (i + 1) he
    · rw [scanBytes, if_neg hv] at he
      simp at he; subst he
      exact ⟨i, v, rfl⟩

theorem msgHashCheck_out_not_num (a : List (String × JValue)) (es : List Err)
    (h : msgHashCheck (.jdict a) = .ok es) (e : Err) (he : e ∈ es) : numErr e = false := by
  unfold msgHashCheck at h
  split at h
  · cases h
  · injection h with h; subst h; cases he
  · split at h
    · cases h
    · split at h
      · injection h with h; subst h
        obtain ⟨j, v, rfl⟩ := scanBytes_mem e _ _ he
        rfl
      · injection h with h; subst h
        simp at he; subst he; rfl
    · injection h with h; subst h
      simp at he; subst he; rfl

theorem aihStringErrors_mem (s : String) (e : Err) (he : e ∈ aihStringErrors s) :
    (∃ n, e = Err.aihHexLen n) ∨ e = Err.aihNotHex s := by
  unfold aihStringErrors at he
  rcases List.mem_append.mp he with h | h
  · by_cases hl : (hexRemainder s).length = 64
    · rw [if_pos hl] at h; cases h
    · rw [if_neg hl] at h
      simp at h
      exact Or.inl ⟨_, h⟩
  · cases hf : fromhexAux (hexRemainder s) with
    | none =>
      rw [hf] at h
      simp at h
      exact Or.inr h
    | some bs =>
      rw [hf] at h
      cases h

theorem aihCheck_out_not_num (a : List (String × JValue)) (es : List Err)
    (h : aihCheck (.jdict a) = .ok es) (e : Err) (he : e ∈ es) : numErr e = false := by
  unfold aihCheck at h
  split at h
  · cases h
  · injection h with h; subst h; cases he
  · split at h
    · cases h
    · injection h with h; subst h
      rcases aihStringErrors_mem _ e he with ⟨n, rfl⟩ | rfl <;> rfl
    · split at h
      · injection h with h; subst h; cases he
      · injection h with h; subst h
        simp at he; subst he; rfl
    · injection h with h; subst h
      simp at he; subst he; rfl

theorem balanceCheck_jdict_none (a : List (String × JValue))
    (hl : dictLookup a "balance_raw" = none) : balanceCheck (.jdict a) = .ok [] := by
  simp [balanceCheck, pyContains, hl]

theorem balanceCheck_jdict_some (a : List (String × JValue)) (v : JValue)
    (hl : dictLookup a "balance_raw" = some v) :
    balanceCheck (.jdict a) =
      .ok (if isPyInt v = true ∧ pyIntVal v < 0 then [Err.balanceNeg] else []) := by
  by_cases hi : isPyInt v = true
  · by_cases hneg : pyIntVal v < 0 <;>
      simp [balanceCheck, pyContains, pyIndex, hl, hi, hneg]
  · simp [balanceCheck, pyContains, pyIndex, hl, hi]

theorem currencyCheck_jdict_none (a : List (String × JValue))
    (hl : dictLookup a "currency_code_int" = none) : currencyCheck (.jdict a) = .ok [] := by
  simp [currencyCheck, pyContains, hl]

theorem currencyCheck_jdict_some (a : List (String × JValue)) (v : JValue)
    (hl : dictLookup a "currency_code_int" = some v) :
    currencyCheck (.jdict a) =
      .ok (if isPyInt v = true ∧ (pyIntVal v < 0 ∨ 4294967295 < pyIntVal v)
           then [Err.currencyRange] else []) := by
  by_cases hi : isPyInt v = true
  · by_cases hr : pyIntVal v < 0 ∨ 4294967295 < pyIntVal v <;>
      simp [currencyCheck, pyContains, pyIndex, hl, hi, hr]
  · simp [currencyCheck, pyContains, pyIndex, hl, hi]

theorem custodianCheck_jdict_none (a : List (String × JValue))
    (hl : dictLookup a "custodian_id" = none) : custodianCheck (.jdict a) = .ok [] := by
  simp [custodianCheck, pyContains, hl]

theorem custodianCheck_jdict_some (a : List (String × JValue)) (v : JValue)
    (hl : dictLookup a "custodian_id" = some v) :
    custodianCheck (.jdict a) =
      .ok (if isPyInt v = true ∧ (pyIntVal v < 0 ∨ 4294967295 < pyIntVal v)
           then [Err.custodianRange] else []) := by
  by_cases hi : isPyInt v = true
  · by_cases hr : pyIntVal v < 0 ∨ 4294967295 < pyIntVal v <;>
      simp [custodianCheck, pyContains, pyIndex, hl, hi, hr]
  · simp [custodianCheck, pyContains, pyIndex, hl, hi]

theorem balanceCheck_mem_iff (a : List (String × JValue)) (ex : List Err)
    (h : balanceCheck (.jdict a) = .ok ex) :
    (Err.balanceNeg ∈ ex ↔
      ∃ v, dictLookup a "balance_raw" = some v ∧ isPyInt v = true ∧ pyIntVal v < 0) ∧
    (∀ e ∈ ex, e = Err.balanceNeg) := by
  cases hl : dictLookup a "balance_raw" with
  | none =>
    rw [balanceCheck_jdict_none a hl] at h
    injection h with h; subst h
    refine ⟨⟨fun hmem => absurd hmem (by simp), ?_⟩, fun e he => absurd he (by simp)⟩
    rintro ⟨v, hv, _⟩
    cases hv
  | some v =>
    rw [balanceCheck_jdict_some a v hl] at h
    by_cases hc : isPyInt v = true ∧ pyIntVal v < 0
    · rw [if_pos hc] at h
      injection h with h; subst h
      exact ⟨⟨fun _ => ⟨v, rfl, hc.1, hc.2⟩, fun _ => by simp⟩, fun e he => by simpa using he⟩
    · rw [if_neg hc] at h
      injection h with h; subst h
      refine ⟨⟨fun hmem => absurd hmem (by simp), ?_⟩, fun e he => absurd he (by simp)⟩
      rintro ⟨v2, hv2, hi2, hn2⟩
      injection hv2 with hv2; subst hv2
      exact absurd ⟨hi2, hn2⟩ hc

theorem currencyCheck_mem_iff (a : List (String × JValue)) (ex : List Err)
    (h : currencyCheck (.jdict a) = .ok ex) :
    (Err.currencyRange ∈ ex ↔
      ∃ v, dictLookup a "currency_code_int" = some v ∧ isPyInt v = true ∧
        (pyIntVal v < 0 ∨ 4294967295 < pyIntVal v)) ∧
    (∀ e ∈ ex, e = Err.currencyRange) := by
  cases hl : dictLookup a "currency_code_int" with
  | none =>
    rw [currencyCheck_jdict_none a hl] at h
    injection h with h; subst h
    refine ⟨⟨fun hmem => absurd hmem (by simp), ?_⟩, fun e he => absurd he (by simp)⟩
    rintro ⟨v, hv, _⟩
    cases hv
  | some v =>
    rw [currencyCheck_jdict_some a v hl] at h
    by_cases hc : isPyInt v = true ∧ (pyIntVal v < 0 ∨ 4294967295 < pyIntVal v)
    · rw [if_pos hc] at h
      injection h with h; subst h
      exact ⟨⟨fun _ => ⟨v, rfl, hc.1, hc.2⟩, fun _ => by simp⟩, fun e he => by simpa using he⟩
    · rw [if_neg hc] at h
      injection h with h; subst h
      refine ⟨⟨fun hmem => absurd hmem (by simp), ?_⟩, fun e he => absurd he (by simp)⟩
      rintro ⟨v2, hv2, hi2, hn2⟩
      injection hv2 with hv2; subst hv2
      exact absurd ⟨hi2, hn2⟩ hc

theorem custodianCheck_mem_iff (a : List (String × JValue)) (ex : List Err)
    (h : custodianCheck (.jdict a) = .ok ex) :
    (Err.custodianRange ∈ ex ↔
      ∃ v, dictLookup a "custodian_id" = some v ∧ isPyInt v = true ∧
        (pyIntVal v < 0 ∨ 4294967295 < pyIntVal v)) ∧
    (∀ e ∈ ex, e = Err.custodianRange) := by
  cases hl : dictLookup a "custodian_id" with
  | none =>
    rw [custodianCheck_jdict_none a hl] at h
    injection h with h; subst h
    refine ⟨⟨fun hmem => absurd hmem (by simp), ?_⟩, fun e he => absurd he (by simp)⟩
    rintro ⟨v, hv, _⟩
    cases hv
  | some v =>
    rw [custodianCheck_jdict_some a v hl] at h
    by_cases hc : isPyInt v = true ∧ (pyIntVal v < 0 ∨ 4294967295 < pyIntVal v)
    · rw [if_pos hc] at h
      injection h with h; subst h
      exact ⟨⟨fun _ => ⟨v, rfl, hc.1, hc.2⟩, fun _ => by simp⟩, fun e he => by simpa using he⟩
    · rw [if_neg hc] at h
      injection h with h; subst h
      refine ⟨⟨fun hmem => absurd hmem (by simp), ?_⟩, fun e he => absurd he (by simp)⟩
      rintro ⟨v2, hv2, hi2, hn2⟩
      injection hv2 with hv2; subst hv2
      exact absurd ⟨hi2, hn2⟩ hc

theorem balanceCheck_jdict_ok_exists (a : List (String × JValue)) :
    ∃ ex, balanceCheck (.jdict a) = .ok ex := by
  cases hl : dictLookup a "balance_raw" with
  | none => exact ⟨[], balanceCheck_jdict_none a hl⟩
  | some v => exact ⟨_, balanceCheck_jdict_some a v hl⟩

theorem currencyCheck_jdict_ok_exists (a : List (String × JValue)) :
    ∃ ex, currencyCheck (.jdict a) = .ok ex := by
  cases hl : dictLookup a "currency_code_int" with
  | none => exact ⟨[], currencyCheck_jdict_none a hl⟩
  | some v => exact ⟨_, currencyCheck_jdict_some a v hl⟩

theorem custodianCheck_jdict_ok_exists (a : List (String × JValue)) :
    ∃ ex, custodianCheck (.jdict a) = .ok ex := by
  cases hl : dictLookup a "custodian_id" with
  | none => exact ⟨[], custodianCheck_jdict_none a hl⟩
  | some v => exact ⟨_, custodianCheck_jdict_some a v hl⟩

theorem validate_mem_decomp (d : List (String × JValue)) (att : JValue) (es : List Err)
    (hatt : dictLookup d "attestation" = some att)
    (hval : validate_attestation (.jdict d) = .ok es) (e : Err) :
    e ∈ es ↔ ∃ chk ∈ checkBlocks, ∃ ex, chk att = .ok ex ∧ e ∈ ex := by
  have hv0 : validate_attestation (.jdict d) = concatMapM (fun chk => chk att) checkBlocks := by
    simp [validate_attestation, pyContains, pyIndex, hatt]
  rw [hv0] at hval
  exact mem_concatMapM _ _ _ hval e

theorem validate_num_mem (d a : List (String × JValue)) (es : List Err)
    (hatt : dictLookup d "attestation" = some (.jdict a))
    (hval : validate_attestation (.jdict d) = .ok es)
    (e0 : Err) (hnum : numErr e0 = true) :
    e0 ∈ es ↔
      (∃ ex, balanceCheck (.jdict a) = .ok ex ∧ e0 ∈ ex) ∨
      (∃ ex, currencyCheck (.jdict a) = .ok ex ∧ e0 ∈ ex) ∨
      (∃ ex, custodianCheck (.jdict a) = .ok ex ∧ e0 ∈ ex) := by
  rw [validate_mem_decomp d _ es hatt hval e0]
  constructor
  · rintro ⟨chk, hchk, ex, hex, hee⟩
    simp only [checkBlocks, List.mem_cons, List.not_mem_nil, or_false] at hchk
    rcases hchk with rfl | rfl | rfl | rfl | rfl | rfl | rfl | rfl
    · rw [requiredPass_out_not_num _ _ hex e0 hee] at hnum; cases hnum
    · rw [pubkeyCheck_out_not_num _ _ hex e0 hee] at hnum; cases hnum
    · rw [signatureCheck_out_not_num _ _ hex e0 hee] at hnum; cases hnum
    · rw [msgHashCheck_out_not_num _ _ hex e0 hee] at hnum; cases hnum
    · rw [aihCheck_out_not_num _ _ hex e0 hee] at hnum; cases hnum
    · exact Or.inl ⟨ex, hex, hee⟩
    · exact Or.inr (Or.inl ⟨ex, hex, hee⟩)
    · exact Or.inr (Or.inr ⟨ex, hex, hee⟩)
  · rintro (⟨ex, hex, hee⟩ | ⟨ex, hex, hee⟩ | ⟨ex, hex, hee⟩)
    · exact ⟨balanceCheck, by simp [checkBlocks], ex, hex, hee⟩
    · exact ⟨currencyCheck, by simp [checkBlocks], ex, hex, hee⟩
    · exact ⟨custodianCheck, by simp [checkBlocks], ex, hex, hee⟩

theorem balanceNeg_iff_of_validate (d a : List (String × JValue)) (es : List Err)
    (hatt : dictLookup d "attestation" = some (.jdict a))
    (hval : validate_attestation (.jdict d) = .ok es) :
    Err.balanceNeg ∈ es ↔
      ∃ v, dictLookup a "balance_raw" = some v ∧ isPyInt v = true ∧ pyIntVal v < 0 := by
  rw [validate_num_mem d a es hatt hval Err.balanceNeg rfl]
  constructor
  · rintro (⟨ex, hex, hee⟩ | ⟨ex, hex, hee⟩ | ⟨ex, hex, hee⟩)
    · exact (balanceCheck_mem_iff a ex hex).1.mp hee
    · have h2 := (currencyCheck_mem_iff a ex hex).2 _ hee; simp at h2
    · have h2 := (custodianCheck_mem_iff a ex hex).2 _ hee; simp at h2
  · intro hc
    obtain ⟨ex, hex⟩ := balanceCheck_jdict_ok_exists a
    exact Or.inl ⟨ex, hex, (balanceCheck_mem_iff a ex hex).1.mpr hc⟩

theorem currencyRange_iff_of_validate (d a : List (String × JValue)) (es : List Err)
    (hatt : dictLookup d "attestation" = some (.jdict a))
    (hval : validate_attestation (.jdict d) = .ok es) :
    Err.currencyRange ∈ es ↔
      ∃ v, dictLookup a "currency_code_int" = some v ∧ isPyInt v = true ∧
        (pyIntVal v < 0 ∨ 4294967295 < pyIntVal v) := by
  rw [validate_num_mem d a es hatt hval Err.currencyRange rfl]
  constructor
  · rintro (⟨ex, hex, hee⟩ | ⟨ex, hex, hee⟩ | ⟨ex, hex, hee⟩)
    · have h2 := (balanceCheck_mem_iff a ex hex).2 _ hee; simp at h2
    · exact (currencyCheck_mem_iff a ex hex).1.mp hee
    · have h2 := (custodianCheck_mem_iff a ex hex).2 _ hee; simp at h2
  · intro hc
    obtain ⟨ex, hex⟩ := currencyCheck_jdict_ok_exists a
    exact Or.inr (Or.inl ⟨ex, hex, (currencyCheck_mem_iff a ex hex).1.mpr hc⟩)

theorem custodianRange_iff_of_validate (d a : List (String × JValue)) (es : List Err)
    (hatt : dictLookup d "attestation" = some (.jdict a))
    (hval : validate_attestation (.jdict d) = .ok es) :
    Err.custodianRange ∈ es ↔
      ∃ v, dictLookup a "custodian_id" = some v ∧ isPyInt v = true ∧
        (pyIntVal v < 0 ∨ 4294967295 < pyIntVal v) := by
  rw [validate_num_mem d a es hatt hval Err.custodianRange rfl]
  constructor
  · rintro (⟨ex, hex, hee⟩ | ⟨ex, hex, hee⟩ | ⟨ex, hex, hee⟩)
    · have h2 := (balanceCheck_mem_iff a ex hex).2 _ hee; simp at h2
    · have h2 := (currencyCheck_mem_iff a ex hex).2 _ hee; simp at h2
    · exact (custodianCheck_mem_iff a ex hex).1.mp hee
  · intro hc
    obtain ⟨ex, hex⟩ := custodianCheck_jdict_ok_exists a
    exact Or.inr (Or.inr ⟨ex, hex, (custodianCheck_mem_iff a ex hex).1.mpr hc⟩)

/-- C9 (confirmed): in the returned error list, the `balance_raw` range
error appears iff the field is present as a JSON integer and negative, the
`currency_code_int` and `custodian_id` range errors appear iff those
fields are present as JSON integers outside [0, 2^32-1]; fields that are
absent or not JSON integers (including booleans, whose values 0/1 are in
range) never receive a range error. -/
theorem C9_numeric_ranges (d a : List (String × JValue)) (es : List Err)
    (hatt : dictLookup d "attestation" = some (.jdict a))
    (hval : validate_attestation (.jdict d) = .ok es) :
    ((∀ n : Int, dictLookup a "balance_raw" = some (.jint n) →
        (Err.balanceNeg ∈ es ↔ n < 0)) ∧
     (∀ v, dictLookup a "balance_raw" = some v → (∀ n : Int, v ≠ .jint n) →
        Err.balanceNeg ∉ es) ∧
     (dictLookup a "balance_raw" = none → Err.balanceNeg ∉ es)) ∧
    ((∀ n : Int, dictLookup a "currency_code_int" = some (.jint n) →
        (Err.currencyRange ∈ es ↔ (n < 0 ∨ 4294967295 < n))) ∧
     (∀ v, dictLookup a "currency_code_int" = some v → (∀ n : Int, v ≠ .jint n) →
        Err.currencyRange ∉ es) ∧
     (dictLookup a "currency_code_int" = none → Err.currencyRange ∉ es)) ∧
    ((∀ n : Int, dictLookup a "custodian_id" = some (.jint n) →
        (Err.custodianRange ∈ es ↔ (n < 0 ∨ 4294967295 < n))) ∧
     (∀ v, dictLookup a "custodian_id" = some v → (∀ n : Int, v ≠ .jint n) →
        Err.custodianRange ∉ es) ∧
     (dictLookup a "custodian_id" = none → Err.custodianRange ∉ es)) := by
  have hb := balanceNeg_iff_of_validate d a es hatt hval
  have hcu := currencyRange_iff_of_validate d a es hatt hval
  have hcs := custodianRange_iff_of_validate d a es hatt hval
  refine ⟨⟨?_, ?_, ?_⟩, ⟨?_, ?_, ?_⟩, ⟨?_, ?_, ?_⟩⟩
  · intro n hn
    rw [hb]
    constructor
    · rintro ⟨v, hv, hi, hneg⟩
      rw [hn] at hv
      injection hv with hv; subst hv
      exact hneg
    · intro hlt
      exact ⟨.jint n, hn, rfl, hlt⟩
  · intro v hv hne
    rw [hb]
    rintro ⟨v2, hv2, hi2, hneg2⟩
    rw [hv] at hv2
    injection hv2 with hv2
    subst hv2
    rcases v with n | q | b | _ | s2 | xs | d2
    · exact hne n rfl
    · simp [isPyInt] at hi2
    · cases b <;> simp [pyIntVal] at hneg2
    · simp [isPyInt] at hi2
    · simp [isPyInt] at hi2
    · simp [isPyInt] at hi2
    · simp [isPyInt] at hi2
  · intro hnone
    rw [hb]
    rintro ⟨v, hv, _⟩
    rw [hnone] at hv
    cases hv
  · intro n hn
    rw [hcu]
    constructor
    · rintro ⟨v, hv, hi, hr⟩
      rw [hn] at hv
      injection hv with hv; subst hv
      exact hr
    · intro hr
      exact ⟨.jint n, hn, rfl, hr⟩
  · intro v hv hne
    rw [hcu]
    rintro ⟨v2, hv2, hi2, hr2⟩
    rw [hv] at hv2
    injection hv2 with hv2
    subst hv2
    rcases v with n | q | b | _ | s2 | xs | d2
    · exact hne n rfl
    · simp [isPyInt] at hi2
    · cases b <;> simp [pyIntVal] at hr2
    · simp [isPyInt] at hi2
    · simp [isPyInt] at hi2
    · simp [isPyInt] at hi2
    · simp [isPyInt] at hi2
  · intro hnone
    rw [hcu]
    rintro ⟨v, hv, _⟩
    rw [hnone] at hv
    cases hv
  · intro n hn
    rw [hcs]
    constructor
    · rintro ⟨v, hv, hi, hr⟩
      rw [hn] at hv
      injection hv with hv; subst hv
      exact hr
    · intro hr
      exact ⟨.jint n, hn, rfl, hr⟩
  · intro v hv hne
    rw [hcs]
    rintro ⟨v2, hv2, hi2, hr2⟩
    rw [hv] at hv2
    injection hv2 with hv2
    subst hv2
    rcases v with n | q | b | _ | s2 | xs | d2
    · exact hne n rfl
    · simp [isPyInt] at hi2
    · cases b <;> simp [pyIntVal] at hr2
    · simp [isPyInt] at hi2
    · simp [isPyInt] at hi2
    · simp [isPyInt] at hi2
    · simp [isPyInt] at hi2
  · intro hnone
    rw [hcs]
    rintro ⟨v, hv, _⟩
    rw [hnone] at hv
    cases hv

/-- Witness for C9: on the otherwise-valid document with `balance_raw`
equal to -5, the returned list is exactly the balance error, and the iff
instantiates to -5 < 0. -/
theorem C9_witness : Err.balanceNeg ∈ [Err.balanceNeg] ↔ (-5 : Int) < 0 :=
  (C9_numeric_ranges [("attestation", JValue.jdict attNegBal)] attNegBal
    [Err.balanceNeg] rfl rfl).1.1 (-5) rfl
